import Mathlib

/-!
# DnsQueryTool: a shallow embedding of `DnsResolver.cpp` and `main.cpp`

The operating system's resolver (WinSock), the clock and the file system are
parameters of the model.  Every function of the repository is translated from
its C++ body: `logError`, the constructor, `resolve`, `resolveBatch` (as a
step relation over the shared queue, the `done` flag, the results vector and
the program counters of the worker threads), `reverseResolve` and `main`.
-/

namespace DnsQueryTool

/-! ## The environment -/

/-- Value of `AF_INET` in winsock2.h. -/
def AF_INET : Int := 2

/-- Value of `AF_INET6` in winsock2.h (ws2def.h). -/
def AF_INET6 : Int := 23

/-- One node of the list that `getaddrinfo` hands back: the address family
and the raw bytes of `sin_addr` / `sin6_addr` behind `ai_addr`. -/
structure AddrInfo where
  ai_family : Int
  ai_addr : List Nat
deriving DecidableEq, Repr

/-- The resolver library as seen by the program.  `WSAStartup` is the return
code of the start-up call, `getaddrinfo` (called with the hints `AF_UNSPEC`,
`SOCK_STREAM`) yields the status and the record list (`res`), `inet_ntop`
yields `none` for a null return, `inet_pton` yields its return code and the
bytes it stored, and `getnameinfo` (called with `NI_NAMEREQD`) yields its
status and the content of the `host` buffer. -/
structure Backend where
  WSAStartup : Int
  getaddrinfo : String → Int × List AddrInfo
  gai_strerror : Int → String
  inet_ntop : Int → List Nat → Option String
  inet_pton : Int → String → Int × List Nat
  getnameinfo : Int → List Nat → Int × String

/-- A call into the resolver library, recorded in the order it is made. -/
inductive Call where
  | getaddrinfo (node : String)
  | inet_ntop (family : Int) (addr : List Nat)
  | inet_pton (family : Int) (text : String)
  | getnameinfo (family : Int) (addr : List Nat)
deriving DecidableEq, Repr

/-- The part of the outside world the program changes or consults:
the records of `dns_resolver.log`, the trace of library calls, how often
`logError` has run, and for the k-th run of `logError` whether the log file
opens for appending and what `std::put_time` prints. -/
structure World where
  logFile : List String
  calls : List Call
  logCalls : Nat
  logOpens : Nat → Bool
  localtime : Nat → String

/-- Record one library call in the trace. -/
def World.call (w : World) (c : Call) : World :=
  { w with calls := w.calls ++ [c] }

/-- The text `std::string::c_str` exposes to a C function: the characters
before the first NUL. -/
def c_str (s : String) : String :=
  String.mk (s.data.takeWhile (fun c => c ≠ Char.ofNat 0))

/-! ## DnsResolver.cpp -/

/-- The record `logError` writes for a message at its k-th run. -/
def logRecord (w : World) (message : String) : String :=
  "[" ++ w.localtime w.logCalls ++ "] " ++ message

/-- `logError`: open `dns_resolver.log` in append mode and, only if the
stream is good, write one timestamped record. -/
def logError (w : World) (message : String) : World :=
  { w with
    logCalls := w.logCalls + 1
    logFile := if w.logOpens w.logCalls then w.logFile ++ [logRecord w message]
               else w.logFile }

/-- The only data member of `DnsResolver`. -/
structure DnsResolver where
  initialized : Bool
deriving DecidableEq, Repr

/-- `DnsResolver::DnsResolver`. -/
def DnsResolver.new (b : Backend) (w : World) : DnsResolver × World :=
  if b.WSAStartup = 0 then (⟨true⟩, w)
  else (⟨false⟩, logError w "Error: WSAStartup failed.")

/-- The `for (p = res; p != nullptr; p = p->ai_next)` loop of `resolve`,
with `ipAddresses` as accumulator. -/
def resolveLoop (b : Backend) : List AddrInfo → List String → World → List String × World
  | [], ipAddresses, w => (ipAddresses, w)
  | p :: rest, ipAddresses, w =>
    if p.ai_family = AF_INET ∨ p.ai_family = AF_INET6 then
      match b.inet_ntop p.ai_family p.ai_addr with
      | none =>
        resolveLoop b rest ipAddresses
          (logError (w.call (.inet_ntop p.ai_family p.ai_addr))
            "Error: Failed to convert IP address.")
      | some ipStr =>
        resolveLoop b rest (ipAddresses ++ [ipStr])
          (w.call (.inet_ntop p.ai_family p.ai_addr))
    else
      resolveLoop b rest ipAddresses (logError w "Warning: Unknown address family.")

/-- `DnsResolver::resolve`. -/
def DnsResolver.resolve (b : Backend) (self : DnsResolver) (hostname : String) (w : World) :
    List String × World :=
  if !self.initialized then
    ([], logError w "Error: WinSock not initialized.")
  else if hostname.isEmpty then
    ([], logError w "Error: Hostname is empty.")
  else
    let w1 := w.call (.getaddrinfo (c_str hostname))
    let status := (b.getaddrinfo (c_str hostname)).1
    let res := (b.getaddrinfo (c_str hostname)).2
    if status ≠ 0 then
      ([], logError w1 ("Error: " ++ b.gai_strerror status ++ " (" ++ hostname ++ ")"))
    else
      let r := resolveLoop b res [] w1
      if r.1.isEmpty then
        (r.1, logError r.2 ("Error: No IP addresses resolved for " ++ hostname))
      else r

/-- `DnsResolver::reverseResolve`.  The member `initialized` is not read. -/
def DnsResolver.reverseResolve (b : Backend) (_self : DnsResolver) (ipAddress : String)
    (w : World) : String × World :=
  let w1 := w.call (.inet_pton AF_INET (c_str ipAddress))
  let p4 := b.inet_pton AF_INET (c_str ipAddress)
  if p4.1 ≠ 0 then
    let w2 := w1.call (.getnameinfo AF_INET p4.2)
    let g := b.getnameinfo AF_INET p4.2
    if g.1 = 0 then (g.2, w2)
    else ("", logError w2 ("Error: Could not resolve IP " ++ ipAddress))
  else
    let w2 := w1.call (.inet_pton AF_INET6 (c_str ipAddress))
    let p6 := b.inet_pton AF_INET6 (c_str ipAddress)
    if p6.1 ≠ 0 then
      let w3 := w2.call (.getnameinfo AF_INET6 p6.2)
      let g := b.getnameinfo AF_INET6 p6.2
      if g.1 = 0 then (g.2, w3)
      else ("", logError w3 ("Error: Could not resolve IP " ++ ipAddress))
    else ("", logError w2 ("Error: Could not resolve IP " ++ ipAddress))

/-! ## DnsResolver::resolveBatch as a step relation -/

/-- Where a worker thread stands in the lambda `worker`: about to take the
lock and wait (`waiting`), holding a dequeued index before the call of
`resolve` (`resolving`), or returned (`exited`). -/
inductive WorkerPc where
  | waiting
  | resolving (index : Nat)
  | exited
deriving DecidableEq, Repr

/-- The variables of one `resolveBatch` call after the queue is filled.
`dequeued` and `written` are history variables: the (worker, index) pairs in
the order they were popped from `tasks` and stored into `results`. -/
structure BatchState where
  tasks : List Nat
  done : Bool
  results : List (List String)
  workers : List WorkerPc
  world : World
  dequeued : List (Nat × Nat)
  written : List (Nat × Nat)

/-- The atomic actions of a `resolveBatch` call: the calling thread starts
one more worker, the calling thread sets `done` and notifies, or worker `i`
runs up to its next release of the lock. -/
inductive Label where
  | spawn
  | signal
  | worker (i : Nat)
deriving DecidableEq, Repr

/-- State after `results(hostnames.size())` and the loop that pushes
`0 .. n-1` into `tasks`. -/
def batchInit (hostnames : List String) (w : World) : BatchState :=
  { tasks := List.range hostnames.length
    done := false
    results := List.replicate hostnames.length []
    workers := []
    world := w
    dequeued := []
    written := [] }

/-- One atomic action; `none` when the action cannot run in this state
(the thread does not exist, is blocked in `cv.wait`, or has returned, or an
index is outside `hostnames` or `results`).  A worker at `waiting` takes the
lock, passes `cv.wait` when the queue is non-empty or `done` is set, and
either pops the front index or returns.  A worker at `resolving` runs
`results[index] = resolve(hostnames[index])` as one action: the calls of
different workers overlap in the program, which can only reorder the records
and calls they add to the world, since the vector `resolve` returns does not
depend on the world. -/
def batchStep (b : Backend) (self : DnsResolver) (numThreads : Nat) (hostnames : List String)
    (st : BatchState) : Label → Option BatchState
  | .spawn =>
    if st.done = false ∧ st.workers.length < numThreads then
      some { st with workers := st.workers ++ [.waiting] }
    else none
  | .signal =>
    if st.done = false ∧ st.workers.length = numThreads then
      some { st with done := true }
    else none
  | .worker i =>
    match st.workers[i]? with
    | none => none
    | some .exited => none
    | some .waiting =>
      match st.tasks with
      | index :: rest =>
        some { st with
          tasks := rest
          workers := st.workers.set i (.resolving index)
          dequeued := st.dequeued ++ [(i, index)] }
      | [] =>
        if st.done then some { st with workers := st.workers.set i .exited }
        else none
    | some (.resolving index) =>
      match hostnames[index]? with
      | none => none
      | some hostname =>
        if index < st.results.length then
          some { st with
            results := st.results.set index (self.resolve b hostname st.world).1
            world := (self.resolve b hostname st.world).2
            workers := st.workers.set i .waiting
            written := st.written ++ [(i, index)] }
        else none

/-- Run a sequence of atomic actions; `none` if one of them cannot run. -/
def batchRun (b : Backend) (self : DnsResolver) (numThreads : Nat) (hostnames : List String) :
    BatchState → List Label → Option BatchState
  | st, [] => some st
  | st, l :: ls =>
    match batchStep b self numThreads hostnames st l with
    | none => none
    | some st1 => batchRun b self numThreads hostnames st1 ls

/-- The calling thread has set `done` and every `join` has returned. -/
def BatchState.finished (st : BatchState) : Bool :=
  st.done && st.workers.all (fun pc => pc = .exited)

/-- `DnsResolver::resolveBatch` under the interleaving `sched`: the returned
vector and the world, or `none` when `sched` is not a complete run of the
call (an action that cannot run, or threads still running at its end). -/
def DnsResolver.resolveBatch (b : Backend) (self : DnsResolver) (numThreads : Nat)
    (hostnames : List String) (w : World) (sched : List Label) :
    Option (List (List String) × World) :=
  if hostnames.isEmpty then
    match sched with
    | [] => some ([], logError w "Error: No hostnames provided for batch resolution.")
    | _ :: _ => none
  else
    match batchRun b self numThreads hostnames (batchInit hostnames w) sched with
    | none => none
    | some st => if st.finished then some (st.results, st.world) else none

/-! ## A mock of the resolver library -/

/-- Decimal text of a byte list joined by dots. -/
def dotted : List Nat → String
  | [] => ""
  | [x] => toString x
  | x :: xs => toString x ++ "." ++ dotted xs

/-- A library that knows three names: "example.test" has the single IPv4
record 93.184.216.34, "b.test" has 10.0.0.1 (and 10.0.0.1 maps back to
"b.test"), "mixed.test" has a record of an unknown family, an IPv4 record
and an IPv6 record that does not convert; every other name fails. -/
def mockBackend : Backend where
  WSAStartup := 0
  getaddrinfo := fun node =>
    if node = "example.test" then (0, [⟨AF_INET, [93, 184, 216, 34]⟩])
    else if node = "b.test" then (0, [⟨AF_INET, [10, 0, 0, 1]⟩])
    else if node = "mixed.test" then
      (0, [⟨17, []⟩, ⟨AF_INET, [10, 0, 0, 2]⟩, ⟨AF_INET6, []⟩])
    else (11001, [])
  gai_strerror := fun _ => "No such host is known."
  inet_ntop := fun family addr =>
    if family = AF_INET ∧ addr.length = 4 then some (dotted addr) else none
  inet_pton := fun family text =>
    if family = AF_INET ∧ text = "10.0.0.1" then (1, [10, 0, 0, 1])
    else if family = AF_INET ∧ text = "10.0.0.9" then (1, [10, 0, 0, 9])
    else if family = AF_INET6 ∧ text = "::1" then
      (1, [0, 0, 0, 0, 0, 0, 0, 0, 0, 0, 0, 0, 0, 0, 0, 1])
    else (0, [])
  getnameinfo := fun family addr =>
    if family = AF_INET ∧ addr = [10, 0, 0, 1] then (0, "b.test")
    else if family = AF_INET6 ∧ addr = [0, 0, 0, 0, 0, 0, 0, 0, 0, 0, 0, 0, 0, 0, 0, 1] then
      (0, "localhost")
    else (11004, "")

/-- A world with an empty log whose log file opens. -/
def world0 : World where
  logFile := []
  calls := []
  logCalls := 0
  logOpens := fun _ => true
  localtime := fun _ => "2024-01-01 00:00:00"

/-- A world with an empty log whose log file cannot be opened. -/
def worldNoLog : World where
  logFile := []
  calls := []
  logCalls := 0
  logOpens := fun _ => false
  localtime := fun _ => "2024-01-01 00:00:00"

/-- A library like the mock whose `WSAStartup` fails (WSASYSNOTREADY). -/
def mockBackendDown : Backend :=
  { mockBackend with WSAStartup := 10091 }

/-! ## main.cpp -/

/-- What the program wrote to `std::cout` and `std::cerr`. -/
structure Console where
  out : List String
  err : List String
deriving DecidableEq, Repr

/-- The text `printUsage` writes to `std::cout`. -/
def printUsage : String :=
  "Usage:\n" ++
  "  --resolve <hostname>          Resolve a single hostname to IP addresses\n" ++
  "  --batch <file>                Resolve multiple hostnames from a file\n" ++
  "  --reverse <ip_address>        Perform a reverse DNS lookup\n" ++
  "  --help                        Show this message\n"

/-- The strings that successive `std::getline(file, hostname)` calls deliver
for the remaining characters of the file, `line` being the characters
extracted so far by the running call.  At the end of the file a call that
extracted nothing fails and ends the loop. -/
def getlines : List Char → List Char → List String
  | [], [] => []
  | [], c :: line => [String.mk (c :: line)]
  | c :: rest, line =>
    if c = '\n' then String.mk line :: getlines rest []
    else getlines rest (line ++ [c])

/-- The vector `hostnames` that the `--batch` branch builds: every line
that `getline` delivers and that is not empty, in file order. -/
def readHostnames (content : String) : List String :=
  (getlines content.data []).filter (fun hostname => !hostname.isEmpty)

/-- One iteration of the printing loop of the `--batch` branch; `none` when
`hostnames[i]` or `results[i]` is outside its vector. -/
def printBatchAt (hostnames : List String) (results : List (List String))
    (out : List String) (i : Nat) : Option (List String) :=
  match hostnames[i]?, results[i]? with
  | some hostname, some ips =>
    some (out ++ ["Resolved IPs for " ++ hostname ++ ":\n"] ++
      (if ips.isEmpty then ["  (No IP addresses found)\n"]
       else ips.map (fun ip => "  " ++ ip ++ "\n")))
  | _, _ => none

/-- The loop `for (size_t i = 0; i < hostnames.size(); ++i)` of the
`--batch` branch. -/
def printBatch (hostnames : List String) (results : List (List String)) :
    Option (List String) :=
  (List.range hostnames.length).foldlM (printBatchAt hostnames results) []

/-- The function `main`: exit code, console output and world, for the argument
vector `argv` (with `argc = argv.length`), the files `fs` that can be opened,
the value `numThreads` of `std::thread::hardware_concurrency()` and the
interleaving `sched` of a batch call.  The result is `none` when `sched` is
not a complete run of the batch call or an access is out of bounds.  The
destructor of `resolver` only calls `WSACleanup`, which changes nothing that
the world records. -/
def main (b : Backend) (numThreads : Nat) (fs : String → Option String) (argv : List String)
    (w : World) (sched : List Label) : Option (Int × Console × World) :=
  match argv with
  | _ :: option :: arg :: _ =>
    let resolver := (DnsResolver.new b w).1
    let w1 := (DnsResolver.new b w).2
    if option = "--resolve" then
      let r := resolver.resolve b arg w1
      if r.1.isEmpty then
        some (1, ⟨[], ["No IP addresses found for " ++ arg ++ "\n"]⟩, r.2)
      else
        some (0, ⟨["Resolved IPs for " ++ arg ++ ":\n"] ++
          r.1.map (fun ip => "  " ++ ip ++ "\n"), []⟩, r.2)
    else if option = "--batch" then
      match fs arg with
      | none => some (1, ⟨[], ["Error: Cannot open file " ++ arg ++ "\n"]⟩, w1)
      | some content =>
        match resolver.resolveBatch b numThreads (readHostnames content) w1 sched with
        | none => none
        | some (results, w2) =>
          match printBatch (readHostnames content) results with
          | none => none
          | some out => some (0, ⟨out, []⟩, w2)
    else if option = "--reverse" then
      let r := resolver.reverseResolve b arg w1
      if r.1.isEmpty then
        some (1, ⟨[], ["No hostname found for IP address: " ++ arg ++ "\n"]⟩, r.2)
      else
        some (0, ⟨["Resolved hostname for " ++ arg ++ ": " ++ r.1 ++ "\n"], []⟩, r.2)
    else if option = "--help" then
      some (0, ⟨[printUsage], []⟩, w1)
    else
      some (1, ⟨[printUsage], ["Unknown option: " ++ option ++ "\n"]⟩, w1)
  | _ => some (1, ⟨[printUsage], []⟩, w)

/-! ## Notions used in the statements and proofs -/

/-- The text a record contributes to the answer of `resolve`: the conversion
of its address when its family is `AF_INET` or `AF_INET6`, nothing else. -/
def textOf (b : Backend) (p : AddrInfo) : Option String :=
  if p.ai_family = AF_INET ∨ p.ai_family = AF_INET6 then b.inet_ntop p.ai_family p.ai_addr
  else none

/-- The characters of `dns_resolver.log`: every record `logError` wrote,
each followed by the line feed of `std::endl`. -/
def logText : List String → String
  | [] => ""
  | r :: rs => r ++ "\n" ++ logText rs

/-- The lines of `dns_resolver.log`, as successive `std::getline` calls
deliver them. -/
def logLines (w : World) : List String :=
  getlines (logText w.logFile).data []

/-- Weight of a worker in the termination measure. -/
def WorkerPc.weight : WorkerPc → Nat
  | .waiting => 1
  | .resolving _ => 2
  | .exited => 0

/-- A bound on the number of atomic actions a state can still perform. -/
def batchMeasure (numThreads : Nat) (st : BatchState) : Nat :=
  3 * (numThreads - st.workers.length) + (if st.done then 0 else 1) +
    2 * st.tasks.length + (st.workers.map WorkerPc.weight).sum

/-- What holds in every state of a `resolveBatch` call on `hostnames` that
started in world `w`. -/
structure BatchInv (b : Backend) (resolver : DnsResolver) (numThreads : Nat)
    (hostnames : List String) (w : World) (st : BatchState) : Prop where
  results_length : st.results.length = hostnames.length
  queue : st.dequeued.map Prod.snd ++ st.tasks = List.range hostnames.length
  workers_le : st.workers.length ≤ numThreads
  done_all : st.done = true → st.workers.length = numThreads
  inflight : ∀ i index, st.workers[i]? = some (.resolving index) →
    (i, index) ∈ st.dequeued ∧ index ∉ st.written.map Prod.snd
  written_sub : ∀ p ∈ st.written, p ∈ st.dequeued
  written_nodup : (st.written.map Prod.snd).Nodup
  cover : ∀ p ∈ st.dequeued, p ∈ st.written ∨ st.workers[p.1]? = some (.resolving p.2)
  results_eq : ∀ index hostname, hostnames[index]? = some hostname →
    st.results[index]? =
      some (if index ∈ st.written.map Prod.snd then (resolver.resolve b hostname w).1 else [])
  exited_empty : WorkerPc.exited ∈ st.workers → st.tasks = []

/-! ## Facts about `logError` and the record loop -/

@[simp] theorem logError_calls (w : World) (m : String) : (logError w m).calls = w.calls := rfl

@[simp] theorem logError_logCalls (w : World) (m : String) :
    (logError w m).logCalls = w.logCalls + 1 := rfl

@[simp] theorem logError_logOpens (w : World) (m : String) :
    (logError w m).logOpens = w.logOpens := rfl

@[simp] theorem logError_localtime (w : World) (m : String) :
    (logError w m).localtime = w.localtime := rfl

theorem logError_logFile_open (w : World) (m : String) (h : w.logOpens w.logCalls = true) :
    (logError w m).logFile = w.logFile ++ [logRecord w m] := by
  simp [logError, h]

theorem logError_logFile_closed (w : World) (m : String) (h : w.logOpens w.logCalls = false) :
    (logError w m).logFile = w.logFile := by
  simp [logError, h]

theorem logError_logFile_grows (w : World) (m : String) :
    w.logFile <+: (logError w m).logFile := by
  unfold logError
  by_cases h : w.logOpens w.logCalls = true
  · simp [h]
  · simp [h]

@[simp] theorem call_logFile (w : World) (c : Call) : (w.call c).logFile = w.logFile := rfl

@[simp] theorem call_logCalls (w : World) (c : Call) : (w.call c).logCalls = w.logCalls := rfl

@[simp] theorem call_logOpens (w : World) (c : Call) : (w.call c).logOpens = w.logOpens := rfl

@[simp] theorem call_localtime (w : World) (c : Call) : (w.call c).localtime = w.localtime := rfl

@[simp] theorem call_calls (w : World) (c : Call) : (w.call c).calls = w.calls ++ [c] := rfl

theorem logText_cons_data (r : String) (rs : List String) :
    (logText (r :: rs)).data = r.data ++ '\n' :: (logText rs).data := by
  simp [logText, String.data_append]

theorem logText_append (rs new : List String) :
    logText (rs ++ new) = logText rs ++ logText new := by
  induction rs with
  | nil => simp [logText]
  | cons r rs ih => simp [logText, ih, String.append_assoc]

/-- A longer list of records gives a longer file. -/
theorem logText_grows {rs rs1 : List String} (h : rs <+: rs1) :
    (logText rs).data <+: (logText rs1).data := by
  obtain ⟨t, rfl⟩ := h
  rw [logText_append, String.data_append]
  exact List.prefix_append _ _

theorem getlines_split (a b : List Char) :
    ∀ acc, getlines (a ++ '\n' :: b) acc = getlines (a ++ ['\n']) acc ++ getlines b [] := by
  induction a with
  | nil => intro acc; simp [getlines]
  | cons c a ih =>
    intro acc
    by_cases hc : c = '\n'
    · simp [getlines, hc, ih]
    · simp [getlines, hc, ih]

theorem getlines_line (l : List Char) (h : '\n' ∉ l) :
    ∀ acc, getlines (l ++ ['\n']) acc = [String.mk (acc ++ l)] := by
  induction l with
  | nil => intro acc; simp [getlines]
  | cons c l ih =>
    intro acc
    have hc : c ≠ '\n' := fun e => h (e ▸ List.mem_cons_self _ _)
    have hl : '\n' ∉ l := fun e => h (List.mem_cons_of_mem _ e)
    simp [getlines, hc, ih hl]

theorem getlines_logText_append (rs : List String) (t : List Char) :
    getlines ((logText rs).data ++ t) [] = getlines (logText rs).data [] ++ getlines t [] := by
  induction rs with
  | nil => simp [logText, getlines]
  | cons r rs ih =>
    rw [logText_cons_data, List.append_assoc, List.cons_append, getlines_split, ih,
      getlines_split r.data (logText rs).data, List.append_assoc]

theorem getlines_logText_clean (new : List String) (h : ∀ l ∈ new, '\n' ∉ l.data) :
    getlines (logText new).data [] = new := by
  induction new with
  | nil => simp [logText, getlines]
  | cons r new ih =>
    rw [logText_cons_data, getlines_split,
      getlines_line r.data (h r (List.mem_cons_self _ _)),
      ih (fun l hl => h l (List.mem_cons_of_mem _ hl))]
    simp

/-- Records without a line feed are each one line of the file. -/
theorem logLines_append (rs new : List String) (h : ∀ l ∈ new, '\n' ∉ l.data) :
    getlines (logText (rs ++ new)).data [] = getlines (logText rs).data [] ++ new := by
  rw [logText_append, String.data_append, getlines_logText_append,
    getlines_logText_clean new h]

/-- A record holds a line feed only if its timestamp or its message does. -/
theorem logRecord_clean (w : World) (m : String)
    (hts : '\n' ∉ (w.localtime w.logCalls).data) (hm : '\n' ∉ m.data) :
    '\n' ∉ (logRecord w m).data := by
  simp only [logRecord, String.data_append, List.mem_append, not_or]
  exact ⟨⟨⟨by decide, hts⟩, by decide⟩, hm⟩

/-- The addresses the loop returns are the accumulator followed by the
converted records in list order. -/
theorem resolveLoop_fst (b : Backend) (rs : List AddrInfo) (acc : List String) (w : World) :
    (resolveLoop b rs acc w).1 = acc ++ rs.filterMap (textOf b) := by
  induction rs generalizing acc w with
  | nil => simp [resolveLoop]
  | cons p rest ih =>
    unfold resolveLoop
    by_cases hf : p.ai_family = AF_INET ∨ p.ai_family = AF_INET6
    · rw [if_pos hf]
      cases hc : b.inet_ntop p.ai_family p.ai_addr with
      | none => simp [ih, textOf, hf, hc, List.filterMap_cons]
      | some t => simp [ih, textOf, hf, hc, List.filterMap_cons]
    · rw [if_neg hf]
      simp [ih, textOf, hf, List.filterMap_cons]

/-- The loop never shortens the log file. -/
theorem resolveLoop_log_grows (b : Backend) (rs : List AddrInfo) (acc : List String)
    (w : World) : w.logFile <+: (resolveLoop b rs acc w).2.logFile := by
  induction rs generalizing acc w with
  | nil => simp [resolveLoop]
  | cons p rest ih =>
    unfold resolveLoop
    by_cases hf : p.ai_family = AF_INET ∨ p.ai_family = AF_INET6
    · rw [if_pos hf]
      cases hc : b.inet_ntop p.ai_family p.ai_addr with
      | none =>
        exact (logError_logFile_grows (w.call _) _).trans (ih _ _)
      | some t => exact ih (acc ++ [t]) (w.call (.inet_ntop p.ai_family p.ai_addr))
    · rw [if_neg hf]
      exact (logError_logFile_grows w _).trans (ih _ _)

/-- With a log file that opens, the loop appends one record per record of
the answer that contributes no address, and nothing else. -/
theorem resolveLoop_log (b : Backend) (rs : List AddrInfo) (acc : List String) (w : World)
    (hopen : ∀ k, w.logOpens k = true) :
    ∃ lines, (resolveLoop b rs acc w).2.logFile = w.logFile ++ lines ∧
      lines.length = (rs.filter (fun p => (textOf b p).isNone)).length ∧
      (resolveLoop b rs acc w).2.logCalls = w.logCalls + lines.length ∧
      (resolveLoop b rs acc w).2.logOpens = w.logOpens ∧
      (resolveLoop b rs acc w).2.localtime = w.localtime ∧
      ((∀ k, '\n' ∉ (w.localtime k).data) → ∀ l ∈ lines, '\n' ∉ l.data) := by
  induction rs generalizing acc w with
  | nil => exact ⟨[], by simp [resolveLoop]⟩
  | cons p rest ih =>
    unfold resolveLoop
    by_cases hf : p.ai_family = AF_INET ∨ p.ai_family = AF_INET6
    · rw [if_pos hf]
      cases hc : b.inet_ntop p.ai_family p.ai_addr with
      | none =>
        obtain ⟨lines, h1, h2, h3, h4, h5, h6⟩ :=
          ih acc (logError (w.call (.inet_ntop p.ai_family p.ai_addr))
            "Error: Failed to convert IP address.") (by simpa using hopen)
        refine ⟨logRecord (w.call (.inet_ntop p.ai_family p.ai_addr))
          "Error: Failed to convert IP address." :: lines, ?_, ?_, ?_, ?_, ?_, ?_⟩
        · rw [h1, logError_logFile_open _ _ (by simpa using hopen _)]
          simp
        · simp [h2, textOf, hf, hc, List.filter_cons]
        · simp [h3]; omega
        · simp [h4]
        · simp [h5]
        · intro hts l hl
          rcases List.mem_cons.mp hl with rfl | hl
          · exact logRecord_clean _ _ (hts _) (by decide)
          · exact h6 hts l hl
      | some t =>
        obtain ⟨lines, h1, h2, h3, h4, h5, h6⟩ :=
          ih (acc ++ [t]) (w.call (.inet_ntop p.ai_family p.ai_addr)) (by simpa using hopen)
        refine ⟨lines, ?_, ?_, ?_, ?_, ?_, ?_⟩
        · simpa using h1
        · simp [h2, textOf, hf, hc, List.filter_cons]
        · simpa using h3
        · simpa using h4
        · simpa using h5
        · exact h6
    · rw [if_neg hf]
      obtain ⟨lines, h1, h2, h3, h4, h5, h6⟩ :=
        ih acc (logError w "Warning: Unknown address family.") (by simpa using hopen)
      refine ⟨logRecord w "Warning: Unknown address family." :: lines, ?_, ?_, ?_, ?_, ?_, ?_⟩
      · rw [h1, logError_logFile_open _ _ (hopen _)]
        simp
      · simp [h2, textOf, hf, List.filter_cons]
      · simp [h3]; omega
      · simp [h4]
      · simp [h5]
      · intro hts l hl
        rcases List.mem_cons.mp hl with rfl | hl
        · exact logRecord_clean _ _ (hts _) (by decide)
        · exact h6 hts l hl

/-- The answer of `resolve` does not depend on the world it runs in. -/
theorem resolve_fst_world (b : Backend) (self : DnsResolver) (hostname : String)
    (w w0 : World) : (self.resolve b hostname w).1 = (self.resolve b hostname w0).1 := by
  unfold DnsResolver.resolve
  by_cases hi : self.initialized = true
  · by_cases he : hostname.isEmpty = true
    · simp [hi, he]
    · by_cases hs : (b.getaddrinfo (c_str hostname)).1 = 0
      · simp only [hi, he, hs]
        simp only [Bool.not_true, Bool.false_eq_true, if_false, ne_eq, not_true_eq_false]
        split <;> split <;> simp_all [resolveLoop_fst]
      · simp [hi, he, hs]
  · simp [hi]

/-- An uninitialized resolver answers every name with the empty vector. -/
theorem resolve_uninitialized_fst (b : Backend) (self : DnsResolver) (hostname : String)
    (w : World) (h : self.initialized = false) : (self.resolve b hostname w).1 = [] := by
  simp [DnsResolver.resolve, h]

@[simp] theorem logRecord_call (w : World) (c : Call) (m : String) :
    logRecord (w.call c) m = logRecord w m := rfl

/-- When every record of the answer converts, the loop leaves the log file
alone. -/
theorem resolveLoop_log_same (b : Backend) (rs : List AddrInfo) (acc : List String) (w : World)
    (hall : ∀ p ∈ rs, (textOf b p).isSome = true) :
    (resolveLoop b rs acc w).2.logFile = w.logFile := by
  induction rs generalizing acc w with
  | nil => simp [resolveLoop]
  | cons p rest ih =>
    have hp := hall p (List.mem_cons_self _ _)
    have hrest : ∀ q ∈ rest, (textOf b q).isSome = true :=
      fun q hq => hall q (List.mem_cons_of_mem _ hq)
    unfold resolveLoop
    by_cases hf : p.ai_family = AF_INET ∨ p.ai_family = AF_INET6
    · rw [if_pos hf]
      cases hc : b.inet_ntop p.ai_family p.ai_addr with
      | none => simp [textOf, hf, hc] at hp
      | some t => exact ih (acc ++ [t]) (w.call (.inet_ntop p.ai_family p.ai_addr)) hrest
    · simp [textOf, hf] at hp

/-- `resolve` on an uninitialized resolver. -/
theorem resolve_eq_uninitialized (b : Backend) (self : DnsResolver) (hostname : String)
    (w : World) (hi : self.initialized = false) :
    self.resolve b hostname w = ([], logError w "Error: WinSock not initialized.") := by
  simp [DnsResolver.resolve, hi]

/-- `resolve` of the empty hostname on an initialized resolver. -/
theorem resolve_eq_empty (b : Backend) (self : DnsResolver) (hostname : String)
    (w : World) (hi : self.initialized = true) (he : hostname.isEmpty = true) :
    self.resolve b hostname w = ([], logError w "Error: Hostname is empty.") := by
  simp [DnsResolver.resolve, hi, he]

/-- `resolve` when `getaddrinfo` returns a nonzero status. -/
theorem resolve_eq_failed (b : Backend) (self : DnsResolver) (hostname : String)
    (w : World) (hi : self.initialized = true) (he : hostname.isEmpty = false)
    (hs : (b.getaddrinfo (c_str hostname)).1 ≠ 0) :
    self.resolve b hostname w =
      ([], logError (w.call (.getaddrinfo (c_str hostname)))
        ("Error: " ++ b.gai_strerror (b.getaddrinfo (c_str hostname)).1 ++
          " (" ++ hostname ++ ")")) := by
  simp [DnsResolver.resolve, hi, he, hs]

/-- `resolve` when `getaddrinfo` returns status 0. -/
theorem resolve_eq_answered (b : Backend) (self : DnsResolver) (hostname : String)
    (w : World) (hi : self.initialized = true) (he : hostname.isEmpty = false)
    (hs : (b.getaddrinfo (c_str hostname)).1 = 0) :
    self.resolve b hostname w =
      if (resolveLoop b (b.getaddrinfo (c_str hostname)).2 []
          (w.call (.getaddrinfo (c_str hostname)))).1.isEmpty = true then
        ((resolveLoop b (b.getaddrinfo (c_str hostname)).2 []
          (w.call (.getaddrinfo (c_str hostname)))).1,
         logError (resolveLoop b (b.getaddrinfo (c_str hostname)).2 []
          (w.call (.getaddrinfo (c_str hostname)))).2
          ("Error: No IP addresses resolved for " ++ hostname))
      else resolveLoop b (b.getaddrinfo (c_str hostname)).2 []
          (w.call (.getaddrinfo (c_str hostname))) := by
  simp [DnsResolver.resolve, hi, he, hs]

/-! ## Single Lookup -/

/-- C5: for an initialized resolver, a non-empty hostname and a backend answer
with status 0 and record list `rs`, `resolve` returns, in the order of `rs`,
the text of exactly those records whose family is `AF_INET` or `AF_INET6` and
whose conversion succeeds; every other record is skipped and the loop goes
on. -/
theorem resolve_returns_converted_records (b : Backend) (self : DnsResolver)
    (hostname : String) (w : World) (rs : List AddrInfo)
    (hinit : self.initialized = true) (hne : hostname.isEmpty = false)
    (hans : b.getaddrinfo (c_str hostname) = (0, rs)) :
    (self.resolve b hostname w).1 =
      rs.filterMap (fun p =>
        if p.ai_family = AF_INET ∨ p.ai_family = AF_INET6 then
          b.inet_ntop p.ai_family p.ai_addr
        else none) := by
  have hloop := resolveLoop_fst b rs [] (w.call (.getaddrinfo (c_str hostname)))
  unfold DnsResolver.resolve
  simp only [hinit, hne, hans]
  simp only [Bool.not_true, Bool.false_eq_true, if_false, ne_eq, not_true_eq_false]
  split
  · simpa [textOf] using hloop
  · simpa [textOf] using hloop

/-- Scenario A and a mixed answer: the mock's single IPv4 record for
"example.test" comes back as its dotted text, and of the three records of
"mixed.test" only the convertible IPv4 record is returned. -/
theorem resolve_returns_converted_records_witness :
    (DnsResolver.resolve mockBackend ⟨true⟩ "example.test" world0).1 = ["93.184.216.34"] ∧
    (DnsResolver.resolve mockBackend ⟨true⟩ "mixed.test" world0).1 = ["10.0.0.2"] :=
  ⟨(resolve_returns_converted_records mockBackend ⟨true⟩ "example.test" world0
      [⟨AF_INET, [93, 184, 216, 34]⟩] rfl (by decide) (by decide)).trans (by decide),
   (resolve_returns_converted_records mockBackend ⟨true⟩ "mixed.test" world0
      [⟨17, []⟩, ⟨AF_INET, [10, 0, 0, 2]⟩, ⟨AF_INET6, []⟩] rfl (by decide)
      (by decide)).trans (by decide)⟩

/-- C6, as stated, fails: with a log file that cannot be opened, `resolve` on
an uninitialized resolver and `resolve` of the empty hostname return the empty
vector and append nothing to the log. -/
theorem resolve_precondition_log_unopened :
    (DnsResolver.resolve mockBackend ⟨false⟩ "example.test" worldNoLog).1 = [] ∧
    (DnsResolver.resolve mockBackend ⟨false⟩ "example.test" worldNoLog).2.logFile =
      worldNoLog.logFile ∧
    (DnsResolver.resolve mockBackend ⟨true⟩ "" worldNoLog).2.logFile = worldNoLog.logFile := by
  decide

/-- C6 (amended): if the hostname is empty or the resolver is uninitialized,
`resolve` returns the empty vector, makes no library call, gives the same
result and world for every backend, and appends exactly one record to the log
when the log file opens and none when it does not. -/
theorem resolve_precondition (b : Backend) (self : DnsResolver) (hostname : String)
    (w : World) (h : hostname.isEmpty = true ∨ self.initialized = false) :
    (self.resolve b hostname w).1 = [] ∧
    (self.resolve b hostname w).2.calls = w.calls ∧
    (∀ b2 : Backend, self.resolve b2 hostname w = self.resolve b hostname w) ∧
    (w.logOpens w.logCalls = true →
      (self.resolve b hostname w).2.logFile =
        w.logFile ++ [logRecord w (if self.initialized = false
          then "Error: WinSock not initialized." else "Error: Hostname is empty.")]) ∧
    (w.logOpens w.logCalls = false → (self.resolve b hostname w).2.logFile = w.logFile) := by
  by_cases hi : self.initialized = true
  · have he : hostname.isEmpty = true := by
      rcases h with h | h
      · exact h
      · rw [hi] at h; cases h
    refine ⟨?_, ?_, ?_, ?_, ?_⟩
    · simp [DnsResolver.resolve, hi, he]
    · simp [DnsResolver.resolve, hi, he]
    · intro b2; simp [DnsResolver.resolve, hi, he]
    · intro ho; simp [DnsResolver.resolve, hi, he, logError_logFile_open _ _ ho]
    · intro ho; simp [DnsResolver.resolve, hi, he, logError_logFile_closed _ _ ho]
  · have hi2 : self.initialized = false := by simpa using hi
    refine ⟨?_, ?_, ?_, ?_, ?_⟩
    · simp [DnsResolver.resolve, hi2]
    · simp [DnsResolver.resolve, hi2]
    · intro b2; simp [DnsResolver.resolve, hi2]
    · intro ho; simp [DnsResolver.resolve, hi2, logError_logFile_open _ _ ho]
    · intro ho; simp [DnsResolver.resolve, hi2, logError_logFile_closed _ _ ho]

/-- Scenario D on the mock: an uninitialized resolver answers "example.test"
with the empty vector, no library call and one record in the log. -/
theorem resolve_precondition_witness :
    (DnsResolver.resolve mockBackend ⟨false⟩ "example.test" world0).1 = [] ∧
    (DnsResolver.resolve mockBackend ⟨false⟩ "example.test" world0).2.calls = [] ∧
    (DnsResolver.resolve mockBackend ⟨false⟩ "example.test" world0).2.logFile =
      ["[2024-01-01 00:00:00] Error: WinSock not initialized."] :=
  ⟨(resolve_precondition mockBackend ⟨false⟩ "example.test" world0 (Or.inr rfl)).1,
   (resolve_precondition mockBackend ⟨false⟩ "example.test" world0 (Or.inr rfl)).2.1,
   ((resolve_precondition mockBackend ⟨false⟩ "example.test" world0 (Or.inr rfl)).2.2.2.1
      rfl).trans (by decide)⟩

/-- C9, as stated, fails twice on the mock.  With a log file that cannot be
opened, the lookup of "a.test", whose backend call returns a nonzero status,
appends nothing.  With a log file that opens, the failing lookup of a hostname
holding a line feed adds two lines to the file, neither of which holds the
hostname. -/
theorem resolve_log_line_failures :
    (mockBackend.getaddrinfo (c_str "a.test")).1 ≠ 0 ∧
    (DnsResolver.resolve mockBackend ⟨true⟩ "a.test" worldNoLog).2.logFile =
      worldNoLog.logFile ∧
    (mockBackend.getaddrinfo (c_str "a\nb")).1 ≠ 0 ∧
    logLines world0 = [] ∧
    logLines (DnsResolver.resolve mockBackend ⟨true⟩ "a\nb" world0).2 =
      ["[2024-01-01 00:00:00] Error: No such host is known. (a", "b)"] := by
  decide

/-- C9 (amended): a call of `resolve` only extends the text of the log file,
and a lookup with at least one record, all converted, leaves it unchanged.
When the log file opens at every run of `logError`, the call appends one
record (timestamp, message, line feed) per failure or warning branch taken:
exactly one if the resolver is uninitialized or the hostname is empty; exactly
one, made of the backend's error string and the hostname, if the backend
status is nonzero; and on status 0 one per record of the answer that was
skipped, followed by one "No IP addresses resolved" record naming the hostname
exactly when no address was converted.  Each of these records is exactly one
line of the file when the timestamps hold no line feed and, for a record that
holds them, neither the hostname nor the backend's error string does. -/
theorem resolve_log_lines (b : Backend) (self : DnsResolver) (hostname : String) (w : World) :
    (logText w.logFile).data <+: (logText (self.resolve b hostname w).2.logFile).data ∧
    (self.initialized = true → hostname.isEmpty = false →
      (b.getaddrinfo (c_str hostname)).1 = 0 →
      (b.getaddrinfo (c_str hostname)).2 ≠ [] →
      (∀ p ∈ (b.getaddrinfo (c_str hostname)).2, (textOf b p).isSome = true) →
      (self.resolve b hostname w).2.logFile = w.logFile) ∧
    ((∀ k, w.logOpens k = true) →
      ((self.initialized = false ∨ hostname.isEmpty = true) →
        ∃ m, (self.resolve b hostname w).2.logFile = w.logFile ++ [logRecord w m] ∧
          ((∀ k, '\n' ∉ (w.localtime k).data) →
            logLines (self.resolve b hostname w).2 = logLines w ++ [logRecord w m])) ∧
      (self.initialized = true → hostname.isEmpty = false →
        (b.getaddrinfo (c_str hostname)).1 ≠ 0 →
        (self.resolve b hostname w).2.logFile =
          w.logFile ++ [logRecord w ("Error: " ++
            b.gai_strerror (b.getaddrinfo (c_str hostname)).1 ++ " (" ++ hostname ++ ")")] ∧
        ((∀ k, '\n' ∉ (w.localtime k).data) → '\n' ∉ hostname.data →
          '\n' ∉ (b.gai_strerror (b.getaddrinfo (c_str hostname)).1).data →
          logLines (self.resolve b hostname w).2 =
            logLines w ++ [logRecord w ("Error: " ++
              b.gai_strerror (b.getaddrinfo (c_str hostname)).1 ++ " (" ++ hostname ++ ")")])) ∧
      (self.initialized = true → hostname.isEmpty = false →
        (b.getaddrinfo (c_str hostname)).1 = 0 →
        ∃ lines, lines.length =
            ((b.getaddrinfo (c_str hostname)).2.filter (fun p => (textOf b p).isNone)).length ∧
          (self.resolve b hostname w).2.logFile = w.logFile ++ lines ++
            (if (b.getaddrinfo (c_str hostname)).2.filterMap (textOf b) = [] then
              ["[" ++ w.localtime (w.logCalls + lines.length) ++ "] " ++
                ("Error: No IP addresses resolved for " ++ hostname)]
             else []) ∧
          ((∀ k, '\n' ∉ (w.localtime k).data) →
            ((b.getaddrinfo (c_str hostname)).2.filterMap (textOf b) = [] →
              '\n' ∉ hostname.data) →
            logLines (self.resolve b hostname w).2 = logLines w ++ lines ++
              (if (b.getaddrinfo (c_str hostname)).2.filterMap (textOf b) = [] then
                ["[" ++ w.localtime (w.logCalls + lines.length) ++ "] " ++
                  ("Error: No IP addresses resolved for " ++ hostname)]
               else [])))) := by
  refine ⟨?_, ?_, ?_⟩
  · apply logText_grows
    by_cases hi : self.initialized = true
    · by_cases he : hostname.isEmpty = true
      · rw [resolve_eq_empty b self hostname w hi he]
        exact logError_logFile_grows w _
      · have he2 : hostname.isEmpty = false := by simpa using he
        by_cases hs : (b.getaddrinfo (c_str hostname)).1 = 0
        · rw [resolve_eq_answered b self hostname w hi he2 hs]
          have hg := resolveLoop_log_grows b (b.getaddrinfo (c_str hostname)).2 []
            (w.call (.getaddrinfo (c_str hostname)))
          split
          · exact hg.trans (logError_logFile_grows _ _)
          · exact hg
        · rw [resolve_eq_failed b self hostname w hi he2 hs]
          exact logError_logFile_grows (w.call (.getaddrinfo (c_str hostname))) _
    · have hi2 : self.initialized = false := by simpa using hi
      rw [resolve_eq_uninitialized b self hostname w hi2]
      exact logError_logFile_grows w _
  · intro hi he hs hne hall
    have hsame := resolveLoop_log_same b (b.getaddrinfo (c_str hostname)).2 []
      (w.call (.getaddrinfo (c_str hostname))) hall
    have hfst := resolveLoop_fst b (b.getaddrinfo (c_str hostname)).2 []
      (w.call (.getaddrinfo (c_str hostname)))
    have hnonempty : (b.getaddrinfo (c_str hostname)).2.filterMap (textOf b) ≠ [] := by
      cases hl : (b.getaddrinfo (c_str hostname)).2 with
      | nil => exact absurd hl hne
      | cons p rest =>
        have hp := hall p (by rw [hl]; exact List.mem_cons_self _ _)
        obtain ⟨t, ht⟩ := Option.isSome_iff_exists.mp hp
        simp [List.filterMap_cons, ht]
    rw [resolve_eq_answered b self hostname w hi he hs, if_neg]
    · simpa using hsame
    · rw [hfst]; simpa using hnonempty
  · intro hopen
    refine ⟨?_, ?_, ?_⟩
    · intro h
      by_cases hi : self.initialized = true
      · have he : hostname.isEmpty = true := by
          rcases h with h | h
          · rw [hi] at h; cases h
          · exact h
        have hrec : (self.resolve b hostname w).2.logFile =
            w.logFile ++ [logRecord w "Error: Hostname is empty."] := by
          rw [resolve_eq_empty b self hostname w hi he, logError_logFile_open _ _ (hopen _)]
        refine ⟨"Error: Hostname is empty.", hrec, fun hts => ?_⟩
        unfold logLines
        rw [hrec]
        exact logLines_append _ _ (fun l hl => by
          rw [List.mem_singleton.mp hl]
          exact logRecord_clean w _ (hts _) (by decide))
      · have hi2 : self.initialized = false := by simpa using hi
        have hrec : (self.resolve b hostname w).2.logFile =
            w.logFile ++ [logRecord w "Error: WinSock not initialized."] := by
          rw [resolve_eq_uninitialized b self hostname w hi2,
            logError_logFile_open _ _ (hopen _)]
        refine ⟨"Error: WinSock not initialized.", hrec, fun hts => ?_⟩
        unfold logLines
        rw [hrec]
        exact logLines_append _ _ (fun l hl => by
          rw [List.mem_singleton.mp hl]
          exact logRecord_clean w _ (hts _) (by decide))
    · intro hi he hs
      have hrec : (self.resolve b hostname w).2.logFile =
          w.logFile ++ [logRecord w ("Error: " ++
            b.gai_strerror (b.getaddrinfo (c_str hostname)).1 ++ " (" ++ hostname ++ ")")] := by
        rw [resolve_eq_failed b self hostname w hi he hs,
          logError_logFile_open _ _ (by simpa using hopen _)]
        simp
      refine ⟨hrec, fun hts hh herr => ?_⟩
      unfold logLines
      rw [hrec]
      refine logLines_append _ _ (fun l hl => ?_)
      rw [List.mem_singleton.mp hl]
      refine logRecord_clean w _ (hts _) ?_
      simp only [String.data_append, List.mem_append, not_or]
      exact ⟨⟨⟨⟨by decide, herr⟩, by decide⟩, hh⟩, by decide⟩
    · intro hi he hs
      obtain ⟨lines, h1, h2, h3, h4, h5, h6⟩ :=
        resolveLoop_log b (b.getaddrinfo (c_str hostname)).2 []
          (w.call (.getaddrinfo (c_str hostname))) (by simpa using hopen)
      have hfst := resolveLoop_fst b (b.getaddrinfo (c_str hostname)).2 []
        (w.call (.getaddrinfo (c_str hostname)))
      have hrec : (self.resolve b hostname w).2.logFile = w.logFile ++ lines ++
          (if (b.getaddrinfo (c_str hostname)).2.filterMap (textOf b) = [] then
            ["[" ++ w.localtime (w.logCalls + lines.length) ++ "] " ++
              ("Error: No IP addresses resolved for " ++ hostname)]
           else []) := by
        rw [resolve_eq_answered b self hostname w hi he hs]
        by_cases hc : (b.getaddrinfo (c_str hostname)).2.filterMap (textOf b) = []
        · rw [if_pos (by rw [hfst]; simp [hc]), if_pos hc]
          rw [logError_logFile_open _ _ (by rw [h4]; simpa using hopen _)]
          simp only [logRecord, h1, h3, h5, call_logFile, call_logCalls, call_localtime]
        · rw [if_neg (by rw [hfst]; simpa using hc), if_neg hc]
          simpa using h1
      refine ⟨lines, h2, hrec, fun hts hh => ?_⟩
      unfold logLines
      rw [hrec, List.append_assoc, List.append_assoc]
      refine logLines_append _ _ (fun l hl => ?_)
      rcases List.mem_append.mp hl with hl | hl
      · exact h6 (by simpa using hts) l hl
      · by_cases hc : (b.getaddrinfo (c_str hostname)).2.filterMap (textOf b) = []
        · rw [if_pos hc, List.mem_singleton] at hl
          rw [hl]
          simp only [String.data_append, List.mem_append, not_or]
          exact ⟨⟨⟨by decide, hts _⟩, by decide⟩, by decide, hh hc⟩
        · rw [if_neg hc] at hl
          cases hl

/-- On the mock with an opening log: the failing name "a.test" adds the one
line that holds the error string and the name, "mixed.test" (two records
skipped, one converted) adds two lines, and "example.test" adds none. -/
theorem resolve_log_lines_witness :
    logLines (DnsResolver.resolve mockBackend ⟨true⟩ "a.test" world0).2 =
      ["[2024-01-01 00:00:00] Error: No such host is known. (a.test)"] ∧
    (∃ lines, lines.length = 2 ∧
      logLines (DnsResolver.resolve mockBackend ⟨true⟩ "mixed.test" world0).2 = lines) ∧
    (DnsResolver.resolve mockBackend ⟨true⟩ "example.test" world0).2.logFile = [] :=
  ⟨((((resolve_log_lines mockBackend ⟨true⟩ "a.test" world0).2.2 (fun _ => rfl)).2.1
      rfl (by decide) (by decide)).2
        (fun _ => (by decide : '\n' ∉ "2024-01-01 00:00:00".data)) (by decide)
        (by decide)).trans (by decide),
   (((resolve_log_lines mockBackend ⟨true⟩ "mixed.test" world0).2.2 (fun _ => rfl)).2.2
      rfl (by decide) (by decide)).imp (fun lines h => ⟨h.1.trans (by decide), by
        rw [h.2.2 (fun _ => (by decide : '\n' ∉ "2024-01-01 00:00:00".data))
          (fun _ => by decide)]
        have hc : (mockBackend.getaddrinfo (c_str "mixed.test")).2.filterMap
            (textOf mockBackend) ≠ [] := by decide
        rw [if_neg hc]
        simp [logLines, world0, logText, getlines]⟩),
   ((resolve_log_lines mockBackend ⟨true⟩ "example.test" world0).2.1
      rfl (by decide) (by decide) (by decide) (by decide)).trans rfl⟩

/-! ## Reverse Lookup -/

/-- C7, as stated, fails: with a log file that cannot be opened, the reverse
lookup of "256.1.1.1" (both parses fail on the mock) returns the empty string
and appends no diagnostic. -/
theorem reverseResolve_log_unopened :
    (DnsResolver.reverseResolve mockBackend ⟨true⟩ "256.1.1.1" worldNoLog).1 = "" ∧
    (DnsResolver.reverseResolve mockBackend ⟨true⟩ "256.1.1.1" worldNoLog).2.logFile =
      worldNoLog.logFile := by
  decide

/-- C7 (amended): `reverseResolve` parses the text as IPv4 first.  If
`inet_pton(AF_INET, ..)` is nonzero the result is the name `getnameinfo` gives
for that address, or "" when its status is nonzero, and the only library calls
are that parse and that `getnameinfo`.  Only when the IPv4 parse returns 0 is
`inet_pton(AF_INET6, ..)` called, followed, if nonzero, by the `getnameinfo`
call for the IPv6 address.  A successful lookup leaves the log file unchanged;
every failure (both parses return 0, or `getnameinfo` fails) returns "" and,
when the log file opens, appends exactly one record, which ends in the input
text; when the log file does not open nothing is appended. -/
theorem reverseResolve_spec (b : Backend) (self : DnsResolver) (a : String) (w : World) :
    ((b.inet_pton AF_INET (c_str a)).1 ≠ 0 →
      (self.reverseResolve b a w).1 =
        (if (b.getnameinfo AF_INET (b.inet_pton AF_INET (c_str a)).2).1 = 0
          then (b.getnameinfo AF_INET (b.inet_pton AF_INET (c_str a)).2).2 else "") ∧
      (self.reverseResolve b a w).2.calls =
        w.calls ++ [.inet_pton AF_INET (c_str a),
          .getnameinfo AF_INET (b.inet_pton AF_INET (c_str a)).2]) ∧
    ((b.inet_pton AF_INET (c_str a)).1 = 0 → (b.inet_pton AF_INET6 (c_str a)).1 ≠ 0 →
      (self.reverseResolve b a w).1 =
        (if (b.getnameinfo AF_INET6 (b.inet_pton AF_INET6 (c_str a)).2).1 = 0
          then (b.getnameinfo AF_INET6 (b.inet_pton AF_INET6 (c_str a)).2).2 else "") ∧
      (self.reverseResolve b a w).2.calls =
        w.calls ++ [.inet_pton AF_INET (c_str a), .inet_pton AF_INET6 (c_str a),
          .getnameinfo AF_INET6 (b.inet_pton AF_INET6 (c_str a)).2]) ∧
    ((b.inet_pton AF_INET (c_str a)).1 = 0 → (b.inet_pton AF_INET6 (c_str a)).1 = 0 →
      (self.reverseResolve b a w).1 = "" ∧
      (self.reverseResolve b a w).2.calls =
        w.calls ++ [.inet_pton AF_INET (c_str a), .inet_pton AF_INET6 (c_str a)]) ∧
    ((((b.inet_pton AF_INET (c_str a)).1 ≠ 0 ∧
        (b.getnameinfo AF_INET (b.inet_pton AF_INET (c_str a)).2).1 = 0) ∨
      ((b.inet_pton AF_INET (c_str a)).1 = 0 ∧ (b.inet_pton AF_INET6 (c_str a)).1 ≠ 0 ∧
        (b.getnameinfo AF_INET6 (b.inet_pton AF_INET6 (c_str a)).2).1 = 0)) →
      (self.reverseResolve b a w).2.logFile = w.logFile) ∧
    ((((b.inet_pton AF_INET (c_str a)).1 ≠ 0 ∧
        (b.getnameinfo AF_INET (b.inet_pton AF_INET (c_str a)).2).1 ≠ 0) ∨
      ((b.inet_pton AF_INET (c_str a)).1 = 0 ∧ (b.inet_pton AF_INET6 (c_str a)).1 ≠ 0 ∧
        (b.getnameinfo AF_INET6 (b.inet_pton AF_INET6 (c_str a)).2).1 ≠ 0) ∨
      ((b.inet_pton AF_INET (c_str a)).1 = 0 ∧ (b.inet_pton AF_INET6 (c_str a)).1 = 0)) →
      (self.reverseResolve b a w).1 = "" ∧
      (w.logOpens w.logCalls = true →
        (self.reverseResolve b a w).2.logFile =
          w.logFile ++ ["[" ++ w.localtime w.logCalls ++ "] " ++
            ("Error: Could not resolve IP " ++ a)]) ∧
      (w.logOpens w.logCalls = false → (self.reverseResolve b a w).2.logFile = w.logFile)) := by
  refine ⟨?_, ?_, ?_, ?_, ?_⟩
  · intro h4
    by_cases hg : (b.getnameinfo AF_INET (b.inet_pton AF_INET (c_str a)).2).1 = 0
    · simp [DnsResolver.reverseResolve, h4, hg]
    · simp [DnsResolver.reverseResolve, h4, hg]
  · intro h4 h6
    by_cases hg : (b.getnameinfo AF_INET6 (b.inet_pton AF_INET6 (c_str a)).2).1 = 0
    · simp [DnsResolver.reverseResolve, h4, h6, hg]
    · simp [DnsResolver.reverseResolve, h4, h6, hg]
  · intro h4 h6
    simp [DnsResolver.reverseResolve, h4, h6]
  · rintro (⟨h4, hg⟩ | ⟨h4, h6, hg⟩)
    · simp [DnsResolver.reverseResolve, h4, hg]
    · simp [DnsResolver.reverseResolve, h4, h6, hg]
  · rintro (⟨h4, hg⟩ | ⟨h4, h6, hg⟩ | ⟨h4, h6⟩)
    · refine ⟨by simp [DnsResolver.reverseResolve, h4, hg], fun ho => ?_, fun ho => ?_⟩
      · simp [DnsResolver.reverseResolve, h4, hg, logError, logRecord, ho]
      · simp [DnsResolver.reverseResolve, h4, hg, logError, ho]
    · refine ⟨by simp [DnsResolver.reverseResolve, h4, h6, hg], fun ho => ?_, fun ho => ?_⟩
      · simp [DnsResolver.reverseResolve, h4, h6, hg, logError, logRecord, ho]
      · simp [DnsResolver.reverseResolve, h4, h6, hg, logError, ho]
    · refine ⟨by simp [DnsResolver.reverseResolve, h4, h6], fun ho => ?_, fun ho => ?_⟩
      · simp [DnsResolver.reverseResolve, h4, h6, logError, logRecord, ho]
      · simp [DnsResolver.reverseResolve, h4, h6, logError, ho]

/-- Scenario C and the three other paths on the mock: "256.1.1.1" fails both
parses and yields "" with one record naming it; "10.0.0.1" yields "b.test"
after the IPv4 parse and one `getnameinfo` call, with no IPv6 call; "10.0.0.9"
parses as IPv4, has no name, and yields "" without an IPv6 attempt; "::1"
yields "localhost" through the IPv6 path. -/
theorem reverseResolve_spec_witness :
    ((DnsResolver.reverseResolve mockBackend ⟨true⟩ "256.1.1.1" world0).1 = "" ∧
      (DnsResolver.reverseResolve mockBackend ⟨true⟩ "256.1.1.1" world0).2.logFile =
        ["[2024-01-01 00:00:00] Error: Could not resolve IP 256.1.1.1"]) ∧
    ((DnsResolver.reverseResolve mockBackend ⟨true⟩ "10.0.0.1" world0).1 = "b.test" ∧
      (DnsResolver.reverseResolve mockBackend ⟨true⟩ "10.0.0.1" world0).2.calls =
        [.inet_pton AF_INET "10.0.0.1", .getnameinfo AF_INET [10, 0, 0, 1]]) ∧
    ((DnsResolver.reverseResolve mockBackend ⟨true⟩ "10.0.0.9" world0).1 = "" ∧
      (DnsResolver.reverseResolve mockBackend ⟨true⟩ "10.0.0.9" world0).2.calls =
        [.inet_pton AF_INET "10.0.0.9", .getnameinfo AF_INET [10, 0, 0, 9]]) ∧
    (DnsResolver.reverseResolve mockBackend ⟨true⟩ "::1" world0).1 = "localhost" :=
  ⟨⟨((reverseResolve_spec mockBackend ⟨true⟩ "256.1.1.1" world0).2.2.2.2
        (Or.inr (Or.inr ⟨by decide, by decide⟩))).1,
     (((reverseResolve_spec mockBackend ⟨true⟩ "256.1.1.1" world0).2.2.2.2
        (Or.inr (Or.inr ⟨by decide, by decide⟩))).2.1 rfl).trans (by decide)⟩,
   ⟨((reverseResolve_spec mockBackend ⟨true⟩ "10.0.0.1" world0).1 (by decide)).1.trans
      (by decide),
    ((reverseResolve_spec mockBackend ⟨true⟩ "10.0.0.1" world0).1 (by decide)).2.trans
      (by decide)⟩,
   ⟨((reverseResolve_spec mockBackend ⟨true⟩ "10.0.0.9" world0).1 (by decide)).1.trans
      (by decide),
    ((reverseResolve_spec mockBackend ⟨true⟩ "10.0.0.9" world0).1 (by decide)).2.trans
      (by decide)⟩,
   ((reverseResolve_spec mockBackend ⟨true⟩ "::1" world0).2.1 (by decide) (by decide)).1.trans
      (by decide)⟩

/-! ## Batch Scheduler: invariant of the step relation -/

/-- The five ways an atomic action can run. -/
theorem batchStep_cases {b : Backend} {self : DnsResolver} {numThreads : Nat}
    {hostnames : List String} {st st1 : BatchState} {l : Label}
    (h : batchStep b self numThreads hostnames st l = some st1) :
    (l = .spawn ∧ st.done = false ∧ st.workers.length < numThreads ∧
      st1 = { st with workers := st.workers ++ [.waiting] }) ∨
    (l = .signal ∧ st.done = false ∧ st.workers.length = numThreads ∧
      st1 = { st with done := true }) ∨
    (∃ i index rest, l = .worker i ∧ st.workers[i]? = some .waiting ∧
      st.tasks = index :: rest ∧
      st1 = { st with
        tasks := rest
        workers := st.workers.set i (.resolving index)
        dequeued := st.dequeued ++ [(i, index)] }) ∨
    (∃ i, l = .worker i ∧ st.workers[i]? = some .waiting ∧ st.tasks = [] ∧ st.done = true ∧
      st1 = { st with workers := st.workers.set i .exited }) ∨
    (∃ i index hostname, l = .worker i ∧ st.workers[i]? = some (.resolving index) ∧
      hostnames[index]? = some hostname ∧ index < st.results.length ∧
      st1 = { st with
        results := st.results.set index (self.resolve b hostname st.world).1
        world := (self.resolve b hostname st.world).2
        workers := st.workers.set i .waiting
        written := st.written ++ [(i, index)] }) := by
  cases l with
  | spawn =>
    simp only [batchStep] at h
    split at h
    · rename_i hc
      exact Or.inl ⟨rfl, hc.1, hc.2, (Option.some.inj h).symm⟩
    · cases h
  | signal =>
    simp only [batchStep] at h
    split at h
    · rename_i hc
      exact Or.inr (Or.inl ⟨rfl, hc.1, hc.2, (Option.some.inj h).symm⟩)
    · cases h
  | worker i =>
    simp only [batchStep] at h
    split at h
    · cases h
    · cases h
    · rename_i hw
      split at h
      · rename_i index rest ht
        exact Or.inr (Or.inr (Or.inl ⟨i, index, rest, rfl, hw, ht, (Option.some.inj h).symm⟩))
      · rename_i ht
        split at h
        · rename_i hd
          exact Or.inr (Or.inr (Or.inr (Or.inl ⟨i, rfl, hw, ht, hd, (Option.some.inj h).symm⟩)))
        · cases h
    · rename_i index hw
      split at h
      · cases h
      · rename_i hostname hh
        split at h
        · rename_i hlt
          exact Or.inr (Or.inr (Or.inr (Or.inr
            ⟨i, index, hostname, rfl, hw, hh, hlt, (Option.some.inj h).symm⟩)))
        · cases h

/-- Two dequeue events of the same index are the same event. -/
theorem fst_eq_of_nodup_snd {l : List (Nat × Nat)} (hn : (l.map Prod.snd).Nodup)
    {i j x : Nat} (hi : (i, x) ∈ l) (hj : (j, x) ∈ l) : i = j := by
  have := List.inj_on_of_nodup_map hn hi hj rfl
  exact congrArg Prod.fst this

/-- The invariant holds once the queue is filled. -/
theorem batchInv_init (b : Backend) (self : DnsResolver) (numThreads : Nat)
    (hostnames : List String) (w : World) :
    BatchInv b self numThreads hostnames w (batchInit hostnames w) where
  results_length := by simp [batchInit]
  queue := by simp [batchInit]
  workers_le := by simp [batchInit]
  done_all := by simp [batchInit]
  inflight := by simp [batchInit]
  written_sub := by simp [batchInit]
  written_nodup := by simp [batchInit]
  cover := by simp [batchInit]
  results_eq := by
    intro index hostname hh
    obtain ⟨hlt, -⟩ := List.getElem?_eq_some.mp hh
    simp [batchInit, List.getElem?_replicate, hlt]
  exited_empty := by simp [batchInit]

/-- Every atomic action preserves the invariant. -/
theorem batchInv_step {b : Backend} {self : DnsResolver} {numThreads : Nat}
    {hostnames : List String} {w : World} {st st1 : BatchState} {l : Label}
    (inv : BatchInv b self numThreads hostnames w st)
    (h : batchStep b self numThreads hostnames st l = some st1) :
    BatchInv b self numThreads hostnames w st1 := by
  rcases batchStep_cases h with ⟨-, hd, hlt, rfl⟩ | ⟨-, hd, hlen, rfl⟩ |
    ⟨i, index, rest, -, hw, ht, rfl⟩ | ⟨i, -, hw, ht, hd, rfl⟩ |
    ⟨i, index, hostname, -, hw, hh, hlt, rfl⟩
  · -- the calling thread starts one more worker
    refine ⟨inv.results_length, inv.queue, ?_, ?_, ?_, inv.written_sub, inv.written_nodup,
      ?_, inv.results_eq, ?_⟩
    · simp only [List.length_append, List.length_singleton]; omega
    · intro hd1; simp only [hd] at hd1; cases hd1
    · intro j idx hj
      simp only [List.getElem?_append] at hj
      split at hj
      · exact inv.inflight j idx hj
      · rcases Nat.eq_zero_or_pos (j - st.workers.length) with h0 | h0
        · rw [h0] at hj; simp at hj
        · rw [List.getElem?_eq_none (by simpa using Nat.succ_le_of_lt h0)] at hj; cases hj
    · intro p hp
      rcases inv.cover p hp with hc | hc
      · exact Or.inl hc
      · right
        obtain ⟨hl, -⟩ := List.getElem?_eq_some.mp hc
        simp only [List.getElem?_append_left hl, hc]
    · intro he
      apply inv.exited_empty
      simpa using he
  · -- the calling thread sets done
    exact ⟨inv.results_length, inv.queue, inv.workers_le, fun _ => hlen, inv.inflight,
      inv.written_sub, inv.written_nodup, inv.cover, inv.results_eq, inv.exited_empty⟩
  · -- worker i pops index
    have hi : i < st.workers.length := (List.getElem?_eq_some.mp hw).1
    have hq := inv.queue
    rw [ht] at hq
    have hnd : (st.dequeued.map Prod.snd ++ index :: rest).Nodup := by
      rw [hq]; exact List.nodup_range _
    have hfresh : index ∉ st.dequeued.map Prod.snd := by
      intro hmem
      exact (List.nodup_append.mp hnd).2.2 hmem (List.mem_cons_self _ _)
    refine ⟨inv.results_length, ?_, ?_, ?_, ?_, ?_, inv.written_nodup, ?_, inv.results_eq, ?_⟩
    · simpa using hq
    · simpa using inv.workers_le
    · simpa using inv.done_all
    · intro j idx hj
      simp only [List.getElem?_set] at hj
      split at hj
      · rename_i hij
        subst hij
        simp only [hi, if_true, Option.some.injEq, WorkerPc.resolving.injEq] at hj
        subst hj
        refine ⟨by simp, ?_⟩
        intro hmem
        obtain ⟨p, hp, hp2⟩ := List.mem_map.mp hmem
        exact hfresh (List.mem_map.mpr ⟨p, inv.written_sub p hp, hp2⟩)
      · exact ⟨List.mem_append_left _ (inv.inflight j idx hj).1, (inv.inflight j idx hj).2⟩
    · intro p hp
      exact List.mem_append_left _ (inv.written_sub p hp)
    · intro p hp
      rcases List.mem_append.mp hp with hp | hp
      · rcases inv.cover p hp with hc | hc
        · exact Or.inl hc
        · right
          have hne : i ≠ p.1 := by
            intro heq
            rw [← heq, hw] at hc
            cases hc
          simp only [List.getElem?_set_ne hne, hc]
      · right
        simp only [List.mem_singleton] at hp
        subst hp
        simp [List.getElem?_set, hi]
    · intro he
      have := inv.exited_empty (by
        rcases List.mem_or_eq_of_mem_set he with hm | hm
        · exact hm
        · cases hm)
      rw [ht] at this
      cases this
  · -- worker i finds the queue empty with done set and returns
    refine ⟨inv.results_length, inv.queue, ?_, ?_, ?_, inv.written_sub, inv.written_nodup, ?_,
      inv.results_eq, fun _ => ht⟩
    · simpa using inv.workers_le
    · simpa using inv.done_all
    · intro j idx hj
      simp only [List.getElem?_set] at hj
      split at hj
      · first
          | cases hj
          | (split at hj <;> cases hj)
      · exact inv.inflight j idx hj
    · intro p hp
      rcases inv.cover p hp with hc | hc
      · exact Or.inl hc
      · right
        have hne : i ≠ p.1 := by
          intro heq
          rw [← heq, hw] at hc
          cases hc
        simp only [List.getElem?_set_ne hne, hc]
  · -- worker i stores the answer for index
    have hi : i < st.workers.length := (List.getElem?_eq_some.mp hw).1
    have hin := inv.inflight i index hw
    have hnd : (st.dequeued.map Prod.snd).Nodup := by
      have : (st.dequeued.map Prod.snd ++ st.tasks).Nodup := by
        rw [inv.queue]; exact List.nodup_range _
      exact (List.nodup_append.mp this).1
    refine ⟨?_, inv.queue, ?_, ?_, ?_, ?_, ?_, ?_, ?_, ?_⟩
    · simpa using inv.results_length
    · simpa using inv.workers_le
    · simpa using inv.done_all
    · intro j idx hj
      simp only [List.getElem?_set] at hj
      split at hj
      · cases hj
      · rename_i hij
        have hold := inv.inflight j idx hj
        refine ⟨hold.1, ?_⟩
        simp only [List.map_append, List.map_cons, List.map_nil, List.mem_append,
          List.mem_singleton, not_or]
        refine ⟨hold.2, ?_⟩
        intro heq
        subst heq
        exact hij (fst_eq_of_nodup_snd hnd hin.1 hold.1)
    · intro p hp
      rcases List.mem_append.mp hp with hp | hp
      · exact inv.written_sub p hp
      · simp only [List.mem_singleton] at hp
        subst hp
        exact hin.1
    · simp only [List.map_append, List.map_cons, List.map_nil]
      exact List.nodup_append.mpr ⟨inv.written_nodup, List.nodup_singleton _, by
        intro x hx hx2
        simp only [List.mem_singleton] at hx2
        subst hx2
        exact hin.2 hx⟩
    · intro p hp
      rcases inv.cover p hp with hc | hc
      · exact Or.inl (List.mem_append_left _ hc)
      · by_cases hpi : i = p.1
        · left
          rw [← hpi, hw] at hc
          simp only [Option.some.injEq, WorkerPc.resolving.injEq] at hc
          have : p = (i, index) := by
            cases p
            simp only at hpi hc
            rw [hpi, hc]
          rw [this]
          simp
        · right
          simp only [List.getElem?_set_ne hpi, hc]
    · intro idx hn hhn
      have hold := inv.results_eq idx hn hhn
      by_cases hidx : index = idx
      · subst hidx
        rw [hh] at hhn
        cases hhn
        simp only [List.getElem?_set, hlt, if_true, List.map_append, List.map_cons,
          List.map_nil, List.mem_append, List.mem_singleton, or_true]
        rw [resolve_fst_world b self hostname st.world w]
      · simp only [List.getElem?_set_ne hidx, hold, List.map_append, List.map_cons,
          List.map_nil, List.mem_append, List.mem_singleton]
        have : ¬ idx = index := fun h => hidx h.symm
        simp only [this, or_false]
    · intro he
      apply inv.exited_empty
      rcases List.mem_or_eq_of_mem_set he with hm | hm
      · exact hm
      · cases hm

/-- The invariant holds after every run from the initial state. -/
theorem batchInv_run {b : Backend} {self : DnsResolver} {numThreads : Nat}
    {hostnames : List String} {w : World} (ls : List Label) :
    ∀ {st st1 : BatchState}, BatchInv b self numThreads hostnames w st →
      batchRun b self numThreads hostnames st ls = some st1 →
      BatchInv b self numThreads hostnames w st1 := by
  induction ls with
  | nil =>
    intro st st1 inv h
    simp only [batchRun, Option.some.injEq] at h
    subst h
    exact inv
  | cons l ls ih =>
    intro st st1 inv h
    simp only [batchRun] at h
    split at h
    · cases h
    · rename_i st2 hstep
      exact ih (batchInv_step inv hstep) h

/-! ## Batch Scheduler: every run ends, and can always be completed -/

theorem weight_sum_set {l : List WorkerPc} {i : Nat} {a x : WorkerPc} (h : l[i]? = some a) :
    ((l.set i x).map WorkerPc.weight).sum + a.weight =
      (l.map WorkerPc.weight).sum + x.weight := by
  induction l generalizing i with
  | nil => simp at h
  | cons y ys ih =>
    cases i with
    | zero =>
      simp only [List.getElem?_cons_zero, Option.some.injEq] at h
      subst h
      simp only [List.set_cons_zero, List.map_cons, List.sum_cons]
      omega
    | succ k =>
      simp only [List.getElem?_cons_succ] at h
      have := ih h
      simp only [List.set_cons_succ, List.map_cons, List.sum_cons]
      omega

/-- Every atomic action lowers the measure. -/
theorem batchStep_measure {b : Backend} {self : DnsResolver} {numThreads : Nat}
    {hostnames : List String} {st st1 : BatchState} {l : Label}
    (h : batchStep b self numThreads hostnames st l = some st1) :
    batchMeasure numThreads st1 < batchMeasure numThreads st := by
  rcases batchStep_cases h with ⟨-, hd, hlt, rfl⟩ | ⟨-, hd, hlen, rfl⟩ |
    ⟨i, index, rest, -, hw, ht, rfl⟩ | ⟨i, -, hw, ht, hd, rfl⟩ |
    ⟨i, index, hostname, -, hw, hh, hlt, rfl⟩
  · simp only [batchMeasure, List.length_append, List.length_singleton, List.map_append,
      List.map_cons, List.map_nil, List.sum_append, List.sum_cons, List.sum_nil,
      WorkerPc.weight]
    omega
  · simp only [batchMeasure, hd]
    simp
  · have hs := weight_sum_set (x := WorkerPc.resolving index) hw
    simp only [WorkerPc.weight] at hs
    simp only [batchMeasure, ht, List.length_set, List.length_cons]
    omega
  · have hs := weight_sum_set (x := WorkerPc.exited) hw
    simp only [WorkerPc.weight] at hs
    simp only [batchMeasure, List.length_set]
    omega
  · have hs := weight_sum_set (x := WorkerPc.waiting) hw
    simp only [WorkerPc.weight] at hs
    simp only [batchMeasure, List.length_set]
    omega

/-- A run is no longer than the measure of the state it starts in. -/
theorem batchRun_length_le {b : Backend} {self : DnsResolver} {numThreads : Nat}
    {hostnames : List String} (ls : List Label) :
    ∀ {st st1 : BatchState}, batchRun b self numThreads hostnames st ls = some st1 →
      ls.length + batchMeasure numThreads st1 ≤ batchMeasure numThreads st := by
  induction ls with
  | nil =>
    intro st st1 h
    simp only [batchRun, Option.some.injEq] at h
    subst h
    simp
  | cons l ls ih =>
    intro st st1 h
    simp only [batchRun] at h
    split at h
    · cases h
    · rename_i st2 hstep
      have h1 := ih h
      have h2 := batchStep_measure hstep
      simp only [List.length_cons]
      omega

/-- Running two schedules in a row. -/
theorem batchRun_append {b : Backend} {self : DnsResolver} {numThreads : Nat}
    {hostnames : List String} (ls1 ls2 : List Label) :
    ∀ {st st1 st2 : BatchState}, batchRun b self numThreads hostnames st ls1 = some st1 →
      batchRun b self numThreads hostnames st1 ls2 = some st2 →
      batchRun b self numThreads hostnames st (ls1 ++ ls2) = some st2 := by
  induction ls1 with
  | nil =>
    intro st st1 st2 h1 h2
    simp only [batchRun, Option.some.injEq] at h1
    subst h1
    simpa using h2
  | cons l ls ih =>
    intro st st1 st2 h1 h2
    simp only [batchRun] at h1
    split at h1
    · cases h1
    · rename_i st3 hstep
      simp only [List.cons_append, batchRun, hstep]
      exact ih h1 h2

/-- No deadlock: a state of the call in which some thread has not finished
has an atomic action that can run. -/
theorem batchStep_progress {b : Backend} {self : DnsResolver} {numThreads : Nat}
    {hostnames : List String} {w : World} {st : BatchState}
    (inv : BatchInv b self numThreads hostnames w st) (hf : st.finished = false) :
    ∃ l st1, batchStep b self numThreads hostnames st l = some st1 := by
  by_cases hd : st.done = true
  · have hall : ¬ (st.workers.all (fun pc => pc = .exited) = true) := by
      intro hall
      simp [BatchState.finished, hd, hall] at hf
    rw [List.all_eq_true] at hall
    push_neg at hall
    obtain ⟨pc, hmem, hpc⟩ := hall
    obtain ⟨i, hi⟩ := List.mem_iff_getElem?.mp hmem
    cases pc with
    | exited => simp at hpc
    | waiting =>
      cases ht : st.tasks with
      | nil =>
        exact ⟨.worker i, Option.isSome_iff_exists.mp (by simp [batchStep, hi, ht, hd])⟩
      | cons index rest =>
        exact ⟨.worker i, Option.isSome_iff_exists.mp (by simp [batchStep, hi, ht])⟩
    | resolving index =>
      have hin := (inv.inflight i index hi).1
      have hmem2 : index ∈ List.range hostnames.length := by
        rw [← inv.queue]
        exact List.mem_append_left _ (List.mem_map.mpr ⟨(i, index), hin, rfl⟩)
      have hlt : index < hostnames.length := List.mem_range.mp hmem2
      have hlt2 : index < st.results.length := by rw [inv.results_length]; exact hlt
      exact ⟨.worker i, Option.isSome_iff_exists.mp (by
        simp [batchStep, hi, List.getElem?_eq_getElem hlt, hlt2])⟩
  · have hd2 : st.done = false := by simpa using hd
    by_cases hlt : st.workers.length < numThreads
    · exact ⟨.spawn, Option.isSome_iff_exists.mp (by simp [batchStep, hd2, hlt])⟩
    · have heq : st.workers.length = numThreads := by
        have := inv.workers_le
        omega
      exact ⟨.signal, Option.isSome_iff_exists.mp (by simp [batchStep, hd2, heq])⟩

/-- From every state of the call some schedule leads to its end. -/
theorem batchRun_complete {b : Backend} {self : DnsResolver} {numThreads : Nat}
    {hostnames : List String} {w : World} :
    ∀ (n : Nat) (st : BatchState), batchMeasure numThreads st ≤ n →
      BatchInv b self numThreads hostnames w st →
      ∃ ls st1, batchRun b self numThreads hostnames st ls = some st1 ∧
        st1.finished = true := by
  intro n
  induction n with
  | zero =>
    intro st hm inv
    by_cases hf : st.finished = true
    · exact ⟨[], st, rfl, hf⟩
    · obtain ⟨l, st1, hstep⟩ := batchStep_progress inv (by simpa using hf)
      have := batchStep_measure hstep
      omega
  | succ n ih =>
    intro st hm inv
    by_cases hf : st.finished = true
    · exact ⟨[], st, rfl, hf⟩
    · obtain ⟨l, st1, hstep⟩ := batchStep_progress inv (by simpa using hf)
      have hlt := batchStep_measure hstep
      obtain ⟨ls, st2, hrun, hfin⟩ := ih st1 (by omega) (batchInv_step inv hstep)
      exact ⟨l :: ls, st2, by simp only [batchRun, hstep, hrun], hfin⟩

/-! ## Batch Scheduler: what a complete call returns -/

/-- A complete call on a non-empty list is a run of the step relation from
the initial state to a finished state. -/
theorem resolveBatch_some {b : Backend} {self : DnsResolver} {numThreads : Nat}
    {hostnames : List String} {w : World} {sched : List Label}
    {r : List (List String) × World} (hne : hostnames ≠ [])
    (h : self.resolveBatch b numThreads hostnames w sched = some r) :
    ∃ st, batchRun b self numThreads hostnames (batchInit hostnames w) sched = some st ∧
      st.finished = true ∧ r = (st.results, st.world) := by
  unfold DnsResolver.resolveBatch at h
  have he : hostnames.isEmpty = false := by
    cases hostnames with
    | nil => exact absurd rfl hne
    | cons x xs => rfl
  simp only [he, Bool.false_eq_true, if_false] at h
  split at h
  · cases h
  · rename_i st hrun
    split at h
    · rename_i hfin
      exact ⟨st, hrun, hfin, (Option.some.inj h).symm⟩
    · cases h

/-- A run from the initial state to a finished state is a complete call. -/
theorem resolveBatch_of_run {b : Backend} {self : DnsResolver} {numThreads : Nat}
    {hostnames : List String} {w : World} {sched : List Label} {st : BatchState}
    (hne : hostnames ≠ [])
    (hrun : batchRun b self numThreads hostnames (batchInit hostnames w) sched = some st)
    (hfin : st.finished = true) :
    self.resolveBatch b numThreads hostnames w sched = some (st.results, st.world) := by
  unfold DnsResolver.resolveBatch
  have he : hostnames.isEmpty = false := by
    cases hostnames with
    | nil => exact absurd rfl hne
    | cons x xs => rfl
  simp only [he, Bool.false_eq_true, if_false, hrun, hfin, if_true]

/-- The call on the empty list returns at once. -/
theorem resolveBatch_nil (b : Backend) (self : DnsResolver) (numThreads : Nat) (w : World) :
    self.resolveBatch b numThreads [] w [] =
      some ([], logError w "Error: No hostnames provided for batch resolution.") := rfl

/-- The returned vector of any complete call has the length of the input. -/
theorem resolveBatch_length_eq {b : Backend} {self : DnsResolver} {numThreads : Nat}
    {hostnames : List String} {w : World} {sched : List Label}
    {r : List (List String) × World}
    (h : self.resolveBatch b numThreads hostnames w sched = some r) :
    r.1.length = hostnames.length := by
  cases hostnames with
  | nil =>
    cases sched with
    | nil =>
      rw [resolveBatch_nil] at h
      cases h
      rfl
    | cons l ls => simp [DnsResolver.resolveBatch] at h
  | cons x xs =>
    obtain ⟨st, hrun, -, rfl⟩ := resolveBatch_some (List.cons_ne_nil x xs) h
    exact (batchInv_run sched (batchInv_init b self numThreads (x :: xs) w) hrun).results_length

/-- Every run of the call can be continued to a complete call. -/
theorem resolveBatch_completes {b : Backend} {self : DnsResolver} {numThreads : Nat}
    {hostnames : List String} {w : World} {sched : List Label} {st : BatchState}
    (hne : hostnames ≠ [])
    (hrun : batchRun b self numThreads hostnames (batchInit hostnames w) sched = some st) :
    ∃ rest r, self.resolveBatch b numThreads hostnames w (sched ++ rest) = some r := by
  have inv := batchInv_run sched (batchInv_init b self numThreads hostnames w) hrun
  obtain ⟨rest, st1, hrun1, hfin⟩ := batchRun_complete (batchMeasure numThreads st) st
    (Nat.le_refl _) inv
  exact ⟨rest, _, resolveBatch_of_run hne (batchRun_append sched rest hrun hrun1) hfin⟩

/-- Some interleaving makes the call return. -/
theorem resolveBatch_returns (b : Backend) (self : DnsResolver) (numThreads : Nat)
    (hostnames : List String) (w : World) :
    ∃ sched r, self.resolveBatch b numThreads hostnames w sched = some r := by
  cases hostnames with
  | nil => exact ⟨[], _, resolveBatch_nil b self numThreads w⟩
  | cons x xs =>
    have hrun : batchRun b self numThreads (x :: xs) (batchInit (x :: xs) w) [] =
        some (batchInit (x :: xs) w) := rfl
    obtain ⟨rest, r, h⟩ := resolveBatch_completes (List.cons_ne_nil x xs) hrun
    exact ⟨_, r, h⟩

/-- With at least one worker, a finished state has an empty queue, every
index was popped, and every popped index was stored. -/
theorem finished_drained {b : Backend} {self : DnsResolver} {numThreads : Nat}
    {hostnames : List String} {w : World} {st : BatchState}
    (inv : BatchInv b self numThreads hostnames w st) (hpos : 0 < numThreads)
    (hfin : st.finished = true) :
    st.tasks = [] ∧ st.dequeued.map Prod.snd = List.range hostnames.length ∧
      ∀ p ∈ st.dequeued, p ∈ st.written := by
  simp only [BatchState.finished, Bool.and_eq_true, List.all_eq_true, decide_eq_true_eq] at hfin
  obtain ⟨hd, hall⟩ := hfin
  have hlen := inv.done_all hd
  have hex : WorkerPc.exited ∈ st.workers := by
    cases hws : st.workers with
    | nil => rw [hws] at hlen; simp at hlen; omega
    | cons pc rest =>
      have := hall pc (by rw [hws]; exact List.mem_cons_self _ _)
      rw [this]
      exact List.mem_cons_self _ _
  have ht := inv.exited_empty hex
  refine ⟨ht, ?_, ?_⟩
  · have := inv.queue
    rw [ht] at this
    simpa using this
  · intro p hp
    rcases inv.cover p hp with hc | hc
    · exact hc
    · have := hall _ (List.mem_iff_getElem?.mpr ⟨p.1, hc⟩)
      cases this

/-- Exactly-once processing when at least one worker exists: in every state
of the call no index was popped twice and no index was stored twice, and in a
finished state the stored indices are exactly `0 .. n-1`, each stored by a
single worker. -/
theorem batch_exactly_once {b : Backend} {self : DnsResolver} {numThreads : Nat}
    {hostnames : List String} {w : World} {sched : List Label} {st : BatchState}
    (hrun : batchRun b self numThreads hostnames (batchInit hostnames w) sched = some st) :
    (st.dequeued.map Prod.snd).Nodup ∧ (st.written.map Prod.snd).Nodup ∧
    (0 < numThreads → st.finished = true →
      st.tasks = [] ∧ (st.written.map Prod.snd).Perm (List.range hostnames.length) ∧
      ∀ index, index < hostnames.length → ∃ i, (i, index) ∈ st.written ∧
        ∀ j, (j, index) ∈ st.written → j = i) := by
  have inv := batchInv_run sched (batchInv_init b self numThreads hostnames w) hrun
  have hnd : (st.dequeued.map Prod.snd).Nodup := by
    have : (st.dequeued.map Prod.snd ++ st.tasks).Nodup := by
      rw [inv.queue]; exact List.nodup_range _
    exact (List.nodup_append.mp this).1
  refine ⟨hnd, inv.written_nodup, ?_⟩
  intro hpos hfin
  obtain ⟨ht, hq, hcov⟩ := finished_drained inv hpos hfin
  have hmem : ∀ x, x ∈ st.written.map Prod.snd ↔ x ∈ List.range hostnames.length := by
    intro x
    rw [← hq]
    constructor
    · intro hx
      obtain ⟨p, hp, rfl⟩ := List.mem_map.mp hx
      exact List.mem_map.mpr ⟨p, inv.written_sub p hp, rfl⟩
    · intro hx
      obtain ⟨p, hp, rfl⟩ := List.mem_map.mp hx
      exact List.mem_map.mpr ⟨p, hcov p hp, rfl⟩
  refine ⟨ht, (List.perm_ext_iff_of_nodup inv.written_nodup (List.nodup_range _)).mpr hmem, ?_⟩
  intro index hlt
  have hx : index ∈ st.written.map Prod.snd := (hmem index).mpr (List.mem_range.mpr hlt)
  obtain ⟨p, hp, hp2⟩ := List.mem_map.mp hx
  refine ⟨p.1, ?_, ?_⟩
  · have : p = (p.1, index) := by rw [← hp2]
    rw [← this]; exact hp
  · intro j hj
    have hpi : (p.1, index) ∈ st.written := by
      have : p = (p.1, index) := by rw [← hp2]
      rw [← this]; exact hp
    exact fst_eq_of_nodup_snd inv.written_nodup hj hpi

/-- Index alignment when at least one worker exists: entry `i` of the vector
a complete call returns is what `resolve` returns for `hostnames[i]`, in
whatever world `resolve` is run. -/
theorem resolveBatch_aligned {b : Backend} {self : DnsResolver} {numThreads : Nat}
    {hostnames : List String} {w : World} {sched : List Label}
    {r : List (List String) × World} (hpos : 0 < numThreads)
    (h : self.resolveBatch b numThreads hostnames w sched = some r) :
    ∀ (i : Nat) (hostname : String) (w1 : World), hostnames[i]? = some hostname →
      r.1[i]? = some (self.resolve b hostname w1).1 := by
  intro i hostname w1 hi
  cases hostnames with
  | nil => simp at hi
  | cons x xs =>
    obtain ⟨st, hrun, hfin, rfl⟩ := resolveBatch_some (List.cons_ne_nil x xs) h
    have inv := batchInv_run sched (batchInv_init b self numThreads (x :: xs) w) hrun
    obtain ⟨-, hq, hcov⟩ := finished_drained inv hpos hfin
    have hlt : i < (x :: xs).length := (List.getElem?_eq_some.mp hi).1
    have hmem : i ∈ st.written.map Prod.snd := by
      have : i ∈ st.dequeued.map Prod.snd := by
        rw [hq]; exact List.mem_range.mpr hlt
      obtain ⟨p, hp, rfl⟩ := List.mem_map.mp this
      exact List.mem_map.mpr ⟨p, hcov p hp, rfl⟩
    have := inv.results_eq i hostname hi
    rw [if_pos hmem] at this
    rw [this, resolve_fst_world b self hostname w w1]

/-- Without workers nothing is ever popped or stored: every state of the
call still has the full queue and the initial, all-empty results vector. -/
theorem batchRun_zero_workers {b : Backend} {self : DnsResolver} {hostnames : List String}
    (sched : List Label) :
    ∀ {st st1 : BatchState}, st.workers = [] →
      batchRun b self 0 hostnames st sched = some st1 →
      st1.workers = [] ∧ st1.results = st.results ∧ st1.tasks = st.tasks ∧
        st1.written = st.written := by
  induction sched with
  | nil =>
    intro st st1 hw h
    simp only [batchRun, Option.some.injEq] at h
    subst h
    exact ⟨hw, rfl, rfl, rfl⟩
  | cons l ls ih =>
    intro st st1 hw h
    simp only [batchRun] at h
    split at h
    · cases h
    · rename_i st2 hstep
      rcases batchStep_cases hstep with ⟨-, -, hlt, -⟩ | ⟨-, -, -, rfl⟩ |
        ⟨i, index, rest, -, hwi, -, -⟩ | ⟨i, -, hwi, -, -, -⟩ |
        ⟨i, index, hostname, -, hwi, -, -, -⟩
      · omega
      · exact @ih { st with done := true } st1 hw h
      · rw [hw] at hwi; simp at hwi
      · rw [hw] at hwi; simp at hwi
      · rw [hw] at hwi; simp at hwi

/-- When `hardware_concurrency()` is 0, every complete call returns one empty
vector per hostname, whatever the backend answers. -/
theorem resolveBatch_zero_workers {b : Backend} {self : DnsResolver}
    {hostnames : List String} {w : World} {sched : List Label}
    {r : List (List String) × World}
    (h : self.resolveBatch b 0 hostnames w sched = some r) :
    r.1 = List.replicate hostnames.length [] := by
  cases hostnames with
  | nil =>
    cases sched with
    | nil =>
      rw [resolveBatch_nil] at h
      cases h
      rfl
    | cons l ls => simp [DnsResolver.resolveBatch] at h
  | cons x xs =>
    obtain ⟨st, hrun, -, rfl⟩ := resolveBatch_some (List.cons_ne_nil x xs) h
    exact (batchRun_zero_workers sched rfl hrun).2.1

/-- C1 fails when `hardware_concurrency()` reports 0: on scenario B (the mock
fails for "a.test" and answers 10.0.0.1 for "b.test") the complete call with
no worker returns two empty vectors although `resolve` in isolation answers
"b.test" with 10.0.0.1; with two workers the call returns the aligned
answers. -/
theorem resolveBatch_scenarioB_zero_workers :
    (DnsResolver.resolveBatch mockBackend ⟨true⟩ 0 ["a.test", "b.test"] world0
      [.signal]).map Prod.fst = some [[], []] ∧
    (DnsResolver.resolve mockBackend ⟨true⟩ "b.test" world0).1 = ["10.0.0.1"] ∧
    (DnsResolver.resolveBatch mockBackend ⟨true⟩ 2 ["a.test", "b.test"] world0
      [.spawn, .worker 0, .spawn, .worker 1, .worker 1, .signal, .worker 0, .worker 1,
        .worker 0]).map Prod.fst = some [[], ["10.0.0.1"]] := by
  decide

/-- C8 fails when there is no worker: after the calling thread has set `done`
the call on two hostnames is finished (every one of its zero workers has
exited) while both indices are still in the queue and none was popped or
stored. -/
theorem batch_zero_workers_queue_not_drained :
    (batchRun mockBackend ⟨true⟩ 0 ["a.test", "b.test"]
      (batchInit ["a.test", "b.test"] world0) [.signal]).map
        (fun st => (st.finished, st.tasks, st.dequeued, st.written)) =
      some (true, [0, 1], [], []) := by
  decide

/-- C2: for every backend, resolver state, worker count and hostname list the
call returns under some interleaving, every run of it is bounded in length and
can be continued to a return, every vector it returns has exactly as many
entries as the input list, and on the empty list it returns the empty vector
at once. -/
theorem resolveBatch_length (b : Backend) (self : DnsResolver) (numThreads : Nat)
    (hostnames : List String) (w : World) :
    (∃ sched r, self.resolveBatch b numThreads hostnames w sched = some r) ∧
    (∀ sched st, hostnames ≠ [] →
      batchRun b self numThreads hostnames (batchInit hostnames w) sched = some st →
      sched.length ≤ 3 * numThreads + 1 + 2 * hostnames.length ∧
      ∃ rest r, self.resolveBatch b numThreads hostnames w (sched ++ rest) = some r) ∧
    (∀ sched r, self.resolveBatch b numThreads hostnames w sched = some r →
      r.1.length = hostnames.length) ∧
    (self.resolveBatch b numThreads [] w [] =
      some ([], logError w "Error: No hostnames provided for batch resolution.")) :=
  ⟨resolveBatch_returns b self numThreads hostnames w,
   fun sched _ hne hrun => ⟨by
      have := batchRun_length_le sched hrun
      simp only [batchMeasure, batchInit, List.length_nil, List.length_range, List.map_nil,
        List.sum_nil] at this
      simp only [Bool.false_eq_true, if_false] at this
      omega, resolveBatch_completes hne hrun⟩,
   fun _ _ h => resolveBatch_length_eq h,
   resolveBatch_nil b self numThreads w⟩

/-- On the mock: a two-worker interleaving of scenario B returns a vector of
two entries, also on an uninitialized resolver and with no worker at all. -/
theorem resolveBatch_length_witness :
    (∃ r, DnsResolver.resolveBatch mockBackend ⟨true⟩ 2 ["a.test", "b.test"] world0
        [.spawn, .worker 0, .spawn, .worker 1, .worker 1, .signal, .worker 0, .worker 1,
          .worker 0] = some r ∧ r.1.length = 2) ∧
    (∃ r, DnsResolver.resolveBatch mockBackend ⟨false⟩ 1 ["a.test", "b.test"] world0
        [.spawn, .signal, .worker 0, .worker 0, .worker 0, .worker 0, .worker 0] = some r ∧
        r.1.length = 2) ∧
    (∃ r, DnsResolver.resolveBatch mockBackend ⟨true⟩ 0 ["a.test", "b.test"] world0
        [.signal] = some r ∧ r.1.length = 2) :=
  ⟨(Option.isSome_iff_exists.mp (by decide)).imp (fun r hr =>
      ⟨hr, (resolveBatch_length mockBackend ⟨true⟩ 2 ["a.test", "b.test"] world0).2.2.1 _ r hr⟩),
   (Option.isSome_iff_exists.mp (by decide)).imp (fun r hr =>
      ⟨hr, (resolveBatch_length mockBackend ⟨false⟩ 1 ["a.test", "b.test"] world0).2.2.1 _ r hr⟩),
   (Option.isSome_iff_exists.mp (by decide)).imp (fun r hr =>
      ⟨hr, (resolveBatch_length mockBackend ⟨true⟩ 0 ["a.test", "b.test"] world0).2.2.1 _ r hr⟩)⟩

/-- C3 fails for `reverseResolve`: the resolver that the constructor leaves
uninitialized when `WSAStartup` fails answers the reverse lookup of "10.0.0.1"
with the backend's name "b.test" and appends no diagnostic, while its
`resolve` against the same backend returns the empty vector. -/
theorem uninitialized_reverseResolve_answers :
    (DnsResolver.new mockBackendDown world0).1.initialized = false ∧
    ((DnsResolver.new mockBackendDown world0).1.reverseResolve mockBackendDown "10.0.0.1"
      (DnsResolver.new mockBackendDown world0).2).1 = "b.test" ∧
    ((DnsResolver.new mockBackendDown world0).1.reverseResolve mockBackendDown "10.0.0.1"
      (DnsResolver.new mockBackendDown world0).2).2.logFile =
        (DnsResolver.new mockBackendDown world0).2.logFile ∧
    ((DnsResolver.new mockBackendDown world0).1.resolve mockBackendDown "b.test"
      (DnsResolver.new mockBackendDown world0).2).1 = [] := by
  decide

/-- What does hold of a resolver whose construction failed: `resolve` returns
the empty vector for every hostname whatever the backend answers, appending
exactly one record to the log when the log file opens; and `resolveBatch`
returns for every list, every entry of every vector it returns being
empty. -/
theorem uninitialized_lookups_empty (b : Backend) (self : DnsResolver) (w : World)
    (hu : self.initialized = false) :
    (∀ hostname, (self.resolve b hostname w).1 = [] ∧
      (w.logOpens w.logCalls = true →
        (self.resolve b hostname w).2.logFile =
          w.logFile ++ [logRecord w "Error: WinSock not initialized."])) ∧
    (∀ numThreads hostnames,
      (∃ sched r, self.resolveBatch b numThreads hostnames w sched = some r) ∧
      ∀ sched r, self.resolveBatch b numThreads hostnames w sched = some r →
        ∀ entry ∈ r.1, entry = []) := by
  refine ⟨fun hostname => ⟨resolve_uninitialized_fst b self hostname w hu, fun ho => ?_⟩,
    fun numThreads hostnames => ⟨resolveBatch_returns b self numThreads hostnames w, ?_⟩⟩
  · rw [resolve_eq_uninitialized b self hostname w hu, logError_logFile_open _ _ ho]
  · intro sched r h entry hmem
    cases hostnames with
    | nil =>
      cases sched with
      | nil =>
        rw [resolveBatch_nil] at h
        cases h
        simp at hmem
      | cons l ls => simp [DnsResolver.resolveBatch] at h
    | cons x xs =>
      obtain ⟨st, hrun, -, rfl⟩ := resolveBatch_some (List.cons_ne_nil x xs) h
      have inv := batchInv_run sched (batchInv_init b self numThreads (x :: xs) w) hrun
      obtain ⟨i, hi⟩ := List.mem_iff_getElem?.mp hmem
      have hlt : i < (x :: xs).length := by
        rw [← inv.results_length]
        exact (List.getElem?_eq_some.mp hi).1
      have := inv.results_eq i _ (List.getElem?_eq_getElem hlt)
      rw [resolve_uninitialized_fst b self _ w hu] at this
      simp only [ite_self] at this
      rw [this] at hi
      exact (Option.some.inj hi).symm

/-- On the mock whose `WSAStartup` fails: the constructed resolver answers
"b.test" with the empty vector and one record, and a one-worker batch of two
names returns two empty vectors. -/
theorem uninitialized_lookups_empty_witness :
    ((DnsResolver.new mockBackendDown world0).1.resolve mockBackendDown "b.test" world0).1 =
      [] ∧
    ((DnsResolver.new mockBackendDown world0).1.resolve mockBackendDown "b.test"
      world0).2.logFile = ["[2024-01-01 00:00:00] Error: WinSock not initialized."] ∧
    (∃ r, (DnsResolver.new mockBackendDown world0).1.resolveBatch mockBackendDown 1
        ["a.test", "b.test"] world0
        [.spawn, .signal, .worker 0, .worker 0, .worker 0, .worker 0, .worker 0] = some r ∧
      ∀ entry ∈ r.1, entry = []) :=
  ⟨((uninitialized_lookups_empty mockBackendDown (DnsResolver.new mockBackendDown world0).1
      world0 (by decide)).1 "b.test").1,
   (((uninitialized_lookups_empty mockBackendDown (DnsResolver.new mockBackendDown world0).1
      world0 (by decide)).1 "b.test").2 rfl).trans (by decide),
   (Option.isSome_iff_exists.mp (by decide)).imp (fun r hr =>
      ⟨hr, ((uninitialized_lookups_empty mockBackendDown
        (DnsResolver.new mockBackendDown world0).1 world0 (by decide)).2 1
          ["a.test", "b.test"]).2 _ r hr⟩)⟩

/-! ## The command line -/

/-- With fewer than three arguments `main` prints the usage text and returns
1, before a resolver is constructed. -/
theorem main_missing_arguments (b : Backend) (numThreads : Nat) (fs : String → Option String)
    (argv : List String) (w : World) (sched : List Label) (h : argv.length < 3) :
    main b numThreads fs argv w sched = some (1, ⟨[printUsage], []⟩, w) := by
  match argv, h with
  | [], _ => rfl
  | [_], _ => rfl
  | [_, _], _ => rfl
  | _ :: _ :: _ :: _, h => simp at h; omega

/-- C4 fails for the argument vector of a bare "--help": `argc` is 2, so
`main` takes the `argc < 3` return and exits with 1, for every backend and
world; with any further argument after "--help" it exits with 0. -/
theorem main_help_alone_exits_one (b : Backend) (numThreads : Nat)
    (fs : String → Option String) (prog : String) (w : World) (sched : List Label) :
    (main b numThreads fs [prog, "--help"] w sched).map Prod.fst = some 1 ∧
    ∀ arg rest, (main b numThreads fs (prog :: "--help" :: arg :: rest) w sched).map Prod.fst =
      some 0 := by
  refine ⟨rfl, fun arg rest => ?_⟩
  simp [main]

/-- The printing loop runs through when `results` is at least as long as
`hostnames`. -/
theorem printBatch_isSome (hostnames : List String) (results : List (List String))
    (hlen : hostnames.length ≤ results.length) :
    (printBatch hostnames results).isSome = true := by
  have key : ∀ k, k ≤ hostnames.length → ∀ out,
      ∃ o, (List.range k).foldlM (printBatchAt hostnames results) out = some o := by
    intro k
    induction k with
    | zero => intro _ out; exact ⟨out, rfl⟩
    | succ k ih =>
      intro hk out
      obtain ⟨o, ho⟩ := ih (by omega) out
      have h1 : k < hostnames.length := by omega
      have h2 : k < results.length := by omega
      rw [List.range_succ, List.foldlM_append, ho]
      simp [printBatchAt, List.getElem?_eq_getElem h1, List.getElem?_eq_getElem h2]
  obtain ⟨o, ho⟩ := key hostnames.length (Nat.le_refl _) []
  unfold printBatch
  rw [ho]
  rfl

/-- C10: for every content of the batch file the hostname list built by the
`--batch` branch holds no empty string; `resolveBatch` returns on it; and for
every vector `resolveBatch` returns on it (the empty vector when the file has
no non-blank line), every `results[i]` with `i` below the length of the
hostname list is in bounds, so the printing loop runs through and `main`
exits with 0. -/
theorem batch_print_in_bounds (b : Backend) (numThreads : Nat) (fs : String → Option String)
    (prog path content : String) (w : World) :
    "" ∉ readHostnames content ∧
    (∃ sched r, (DnsResolver.new b w).1.resolveBatch b numThreads (readHostnames content)
      (DnsResolver.new b w).2 sched = some r) ∧
    (readHostnames content = [] →
      (DnsResolver.new b w).1.resolveBatch b numThreads (readHostnames content)
        (DnsResolver.new b w).2 [] =
          some ([], logError (DnsResolver.new b w).2
            "Error: No hostnames provided for batch resolution.")) ∧
    (∀ sched r, (DnsResolver.new b w).1.resolveBatch b numThreads (readHostnames content)
        (DnsResolver.new b w).2 sched = some r →
      (∀ i, i < (readHostnames content).length → i < r.1.length) ∧
      (printBatch (readHostnames content) r.1).isSome = true ∧
      (fs path = some content →
        ∃ out, main b numThreads fs [prog, "--batch", path] w sched =
          some (0, ⟨out, []⟩, r.2))) := by
  refine ⟨?_, resolveBatch_returns _ _ _ _ _, ?_, ?_⟩
  · intro hmem
    have := (List.mem_filter.mp hmem).2
    simp only [Bool.not_eq_true', ] at this
    exact absurd this (by decide)
  · intro hnil
    rw [hnil]
    rfl
  · intro sched r h
    have hlen := resolveBatch_length_eq h
    have hp := printBatch_isSome (readHostnames content) r.1 (by omega)
    refine ⟨fun i hi => by omega, hp, fun hfs => ?_⟩
    obtain ⟨out, hout⟩ := Option.isSome_iff_exists.mp hp
    refine ⟨out, ?_⟩
    simp [main, hfs, h, hout]

/-- On the mock: a file with a blank line in the middle gives the two names
with the blank dropped, the one-worker batch prints both blocks and `main`
exits with 0; a file of blank lines gives no name and `main` exits with 0
after the empty batch. -/
theorem batch_print_in_bounds_witness :
    readHostnames "a.test\n\nb.test\n" = ["a.test", "b.test"] ∧
    (∃ r, (DnsResolver.new mockBackend world0).1.resolveBatch mockBackend 1
        (readHostnames "a.test\n\nb.test\n") (DnsResolver.new mockBackend world0).2
        [.spawn, .signal, .worker 0, .worker 0, .worker 0, .worker 0, .worker 0] = some r ∧
      (∀ i, i < (readHostnames "a.test\n\nb.test\n").length → i < r.1.length) ∧
      ∃ out, main mockBackend 1 (fun _ => some "a.test\n\nb.test\n") ["dns", "--batch", "f"]
        world0 [.spawn, .signal, .worker 0, .worker 0, .worker 0, .worker 0, .worker 0] =
          some (0, ⟨out, []⟩, r.2)) ∧
    (∃ r, (DnsResolver.new mockBackend world0).1.resolveBatch mockBackend 1
        (readHostnames "\n\n") (DnsResolver.new mockBackend world0).2 [] = some r ∧
      ∃ out, main mockBackend 1 (fun _ => some "\n\n") ["dns", "--batch", "f"] world0 [] =
        some (0, ⟨out, []⟩, r.2)) :=
  ⟨by decide,
   (Option.isSome_iff_exists.mp (by decide)).imp (fun r hr =>
      ⟨hr, ((batch_print_in_bounds mockBackend 1 (fun _ => some "a.test\n\nb.test\n") "dns" "f"
          "a.test\n\nb.test\n" world0).2.2.2 _ r hr).1,
        ((batch_print_in_bounds mockBackend 1 (fun _ => some "a.test\n\nb.test\n") "dns" "f"
          "a.test\n\nb.test\n" world0).2.2.2 _ r hr).2.2 rfl⟩),
   (Option.isSome_iff_exists.mp (by decide)).imp (fun r hr =>
      ⟨hr, ((batch_print_in_bounds mockBackend 1 (fun _ => some "\n\n") "dns" "f"
          "\n\n" world0).2.2.2 _ r hr).2.2 rfl⟩)⟩

end DnsQueryTool
